import Mathlib

/-!
Verification of the AgentLoop orchestration engine.

This file gives a shallow embedding of the orchestration core of the
AgentLoop repository — the tick engine (`engine/orchestrator.py`), the
approval policy (`engine/approval.py`), the trigger evaluator, the
inbound/outbound Mission Control synchronizer
(`plugins/mission-control/hooks.py`, `integrations/mission_control.py`)
and the worker engine (`engine/worker.py`) — and proves properties of the
embedded code.

Modelling conventions:
- entity ids (time-sortable UUIDs in the source) are opaque `String`s;
- timestamps are integer seconds (`datetime.utcnow()` becomes a `now`
  parameter; `timedelta(minutes=5)` is `300`, `days=7` is `604800`,
  `days=30` is `2592000`);
- JSON payload values (`Dict[str, Any]` in the source) are `PyVal`s and
  dictionaries are association lists looked up by key;
- the external board (HTTP client in `integrations/mission_control.py`)
  is an explicit input: the task lists it returns are a function of the
  board id, and outbound HTTP calls are recorded in a `BoardCall` trace;
- database sessions become explicit `DB` state passing; a SQLModel
  `select` is a `List.filter` over the corresponding table list and
  `session.get(Model, pk)` is a `List.find?` on the id.  New rows receive
  fresh ids from a `next_id` counter (source: `uuid7()` defaults).

Two declarations are modelled from the spec rather than translated from
`src/`, because the snapshot's core `models.py` predates the rest of the
tree: `Project.status` / `ProjectStatus` and the proposal fields
`mc_task_id` / `mc_board_id` (both are used throughout the plugin hooks,
API modules and tests, and are given in spec §3), and the board helper
`ask_user` (spec §6: `POST /gateway/main/ask-user`), whose callers and
tests are in `src/` but whose definition is not.
-/

namespace AgentLoop

/-- A JSON-ish value as stored in event payloads, trigger patterns and
trigger actions (`Dict[str, Any]` columns). Equality is strict, following
spec §4.3 ("Equality is strict (no coercion)"). -/
inductive PyVal where
  | str (s : String)
  | int (n : Int)
  | bool (b : Bool)
  | null
deriving DecidableEq, Repr

/-- A JSON object: an association list keyed by strings. -/
abbrev Dict := List (String × PyVal)

/-- `d.get(k)` / `k in d` for the association lists standing in for Python
dicts: the value at the first occurrence of the key, if any. -/
def pyLookup (d : Dict) (k : String) : Option PyVal :=
  (d.find? (fun kv => kv.fst == k)).map (fun kv => kv.snd)

/-- `str.lower()`: the character list of a string, lowercased (the titles
handled by the approval policy are ASCII). -/
def lowerChars (s : String) : List Char := s.data.map Char.toLower

/-- Python `kw in title.lower()` for a lowercase keyword `kw`: substring
containment. -/
def containsKw (title : String) (kw : String) : Bool :=
  decide (List.IsInfix kw.data (lowerChars title))

/-- `any(keyword in title.lower() for keyword in kws)`. -/
def kwAny (title : String) (kws : List String) : Bool :=
  kws.any (containsKw title)

/- ── Enumerations (models.py) ── -/

/-- `AgentStatus` from `models.py`. -/
inductive AgentStatus where
  | active
  | paused
deriving DecidableEq, Repr

/-- `ProposalStatus` from `models.py`. -/
inductive ProposalStatus where
  | draft
  | pending
  | approved
  | rejected
  | expired
deriving DecidableEq, Repr

/-- `ProposalPriority` from `models.py`. -/
inductive ProposalPriority where
  | critical
  | high
  | medium
  | low
deriving DecidableEq, Repr

/-- `MissionStatus` from `models.py`. -/
inductive MissionStatus where
  | planned
  | active
  | completed
  | failed
  | cancelled
deriving DecidableEq, Repr

/-- `StepStatus` from `models.py`. -/
inductive StepStatus where
  | pending
  | claimed
  | running
  | completed
  | failed
  | skipped
deriving DecidableEq, Repr

/-- `StepType` from `models.py`. -/
inductive StepType where
  | code
  | testing
  | review
  | deploy
  | research
  | other
deriving DecidableEq, Repr

/-- The string value of a `StepType` (`step.step_type.value`). The
constructor for the `"test"` member is named `testing` in the embedding. -/
def StepType.strVal : StepType → String
  | .code => "code"
  | .testing => "test"
  | .review => "review"
  | .deploy => "deploy"
  | .research => "research"
  | .other => "other"

/-- Pydantic coercion of a string into `StepType` (e.g.
`Step(step_type="deploy")`); `none` when the string is not a member,
which in the source raises a validation error. -/
def stepTypeOfString (s : String) : Option StepType :=
  if s = "code" then some .code
  else if s = "test" then some .testing
  else if s = "review" then some .review
  else if s = "deploy" then some .deploy
  else if s = "research" then some .research
  else if s = "other" then some .other
  else none

/-- Modelled from the spec: `ProjectStatus` (spec section 3: ACTIVE,
PAUSED or DECOMMISSIONED). The core `models.py` of the snapshot lacks
the enum, but the plugin hooks, the projects API and the tests all
reference it as `agentloop.models.ProjectStatus`. -/
inductive ProjectStatus where
  | active
  | paused
  | decommissioned
deriving DecidableEq, Repr

/- ── Entities (models.py; presentational fields omitted) ── -/

/-- `Project` from `models.py`. `status` is modelled from the spec (§3);
see `ProjectStatus`. -/
structure Project where
  id : String
  name : String
  slug : String
  status : ProjectStatus
deriving DecidableEq, Repr

/-- `Agent` from `models.py`. The opaque `config` JSON column is modelled
by the single key the approval engine reads:
`config.get("auto_approve_proposals", False)`. The worker engine's view
of agent configuration (YAML merge, capabilities) is a separate explicit
parameter, see `ConfigLoad`. -/
structure Agent where
  id : String
  name : String
  role : String
  status : AgentStatus
  project_id : String
  auto_approve_proposals : Bool
deriving DecidableEq, Repr

/-- `Proposal` from `models.py`. `mc_task_id` and `mc_board_id` are
modelled from the spec (§3: deduplication key and board id of the synced
task); the fields are absent from the snapshot's core `models.py` but are
used by the orchestrator, the plugin hooks, the dashboard routes and the
test factories. -/
structure Proposal where
  id : String
  agent_id : String
  project_id : String
  title : String
  description : String
  rationale : String
  priority : ProposalPriority
  status : ProposalStatus
  auto_approve : Bool
  reviewed_by : Option String
  reviewed_at : Option Int
  mc_task_id : Option String
  mc_board_id : Option String
  created_at : Int
deriving DecidableEq, Repr

/-- `Mission` from `models.py`. -/
structure Mission where
  id : String
  proposal_id : String
  project_id : String
  title : String
  description : String
  status : MissionStatus
  assigned_agent_id : Option String
  completed_at : Option Int
deriving DecidableEq, Repr

/-- `Step` from `models.py`. -/
structure Step where
  id : String
  mission_id : String
  order_index : Int
  title : String
  description : String
  step_type : StepType
  status : StepStatus
  claimed_by_agent_id : Option String
  output : Option String
  error : Option String
  started_at : Option Int
  completed_at : Option Int
  created_at : Int
deriving DecidableEq, Repr

/-- `Event` from `models.py` (append-only audit log). -/
structure Event where
  event_type : String
  source_agent_id : Option String
  project_id : String
  payload : Dict
  created_at : Int
deriving DecidableEq, Repr

/-- The `event_pattern` JSON column of a trigger: the evaluator reads the
optional keys `"event_type"` and `"conditions"`
(`_match_events_to_trigger`). -/
structure EventPattern where
  event_type : Option String
  conditions : Option Dict
deriving DecidableEq, Repr

/-- The `action` JSON column of a trigger: the executor reads
`action.get("type")` and, for `create_step`, the optional keys
`"title"`, `"description"`, `"step_type"` and `"order_index"`
(`_create_step_from_trigger`). -/
structure TriggerAction where
  type : Option String
  title : Option String
  description : Option String
  step_type : Option String
  order_index : Option Int
deriving DecidableEq, Repr

/-- `Trigger` from `models.py`. -/
structure Trigger where
  id : String
  project_id : String
  name : String
  event_pattern : EventPattern
  action : TriggerAction
  enabled : Bool
  last_fired_at : Option Int
deriving DecidableEq, Repr

/-- The store state: one list per table, plus a counter supplying fresh
primary keys for created rows (`uuid7()` in the source). -/
structure DB where
  projects : List Project
  agents : List Agent
  proposals : List Proposal
  missions : List Mission
  steps : List Step
  events : List Event
  triggers : List Trigger
  next_id : Nat
deriving DecidableEq, Repr

/-- A fresh primary key. -/
def DB.freshId (db : DB) : String := "row-" ++ toString db.next_id

/-- A task as returned by the board API (`GET /api/v1/boards/{id}/tasks`
items). Fields are optional because the source reads them with
`task.get(key, default)`. -/
structure Task where
  id : Option String
  title : Option String
  description : Option String
  status : Option String
  priority : Option String
deriving DecidableEq, Repr

/-- One outbound call to the Mission Control board, as issued by
`integrations/mission_control.py`: a task comment
(`POST .../tasks/{task_id}/comments`), a task status update
(`PATCH .../tasks/{task_id}`), or an ask-user message
(`POST /gateway/main/ask-user`). -/
inductive BoardCall where
  | comment (board_id task_id content : String)
  | patchTask (board_id task_id status : String)
  | askUserMsg (board_id content correlation_id : String)
deriving DecidableEq, Repr

/-- The external world a tick interacts with: the configured
`BOARD_PROJECT_MAP` (board id to project slug), the open tasks each board
returns (transport failures surface as `[]`, as `get_board_tasks` returns
`[]` when `mc_get` yields `None`), and whether the modelled `ask_user`
call to a board succeeds (it returns `None` on transport failure). -/
structure Ext where
  board_map : List (String × String)
  boardTasks : String → List Task
  askUserOk : String → Bool

end AgentLoop

namespace AgentLoop

/- ── ApprovalEngine (engine/approval.py) ── -/

/-- Embeds `ApprovalEngine._should_auto_approve`: requires the proposal's
`auto_approve` flag, then applies the ordered rules — (1) low/medium
priority with the originating agent's `auto_approve_proposals` config,
(2) title keywords fix/patch/hotfix/typo, (3) docs/documentation/readme,
(4) test/spec/testing. `session.get(Agent, proposal.agent_id)` is the
first agent with that id. -/
def shouldAutoApprove (agents : List Agent) (p : Proposal) : Bool :=
  if !p.auto_approve then false
  else if (p.priority == .low || p.priority == .medium)
      && (match agents.find? (fun a => a.id == p.agent_id) with
          | some a => a.auto_approve_proposals
          | none => false) then true
  else if kwAny p.title ["fix", "patch", "hotfix", "typo"] then true
  else if kwAny p.title ["docs", "documentation", "readme"] then true
  else kwAny p.title ["test", "spec", "testing"]

/-- The update `_should_auto_approve` performs on a matched proposal. -/
def approveBySystem (now : Int) (p : Proposal) : Proposal :=
  { p with status := .approved, reviewed_by := some "system",
           reviewed_at := some now }

/-- Embeds `ApprovalEngine.process_pending_approvals`: every PENDING
proposal that `_should_auto_approve` accepts becomes APPROVED with
`reviewed_by="system"` and `reviewed_at=now`; the second component is the
number of proposals processed (the length of the returned list). Each
loop iteration mutates only its own proposal and reads only the agents
table, so the loop is a pointwise map over the proposals table. -/
def processPendingApprovals (now : Int) (db : DB) : DB × Nat :=
  let hit : Proposal → Bool :=
    fun p => p.status == .pending && shouldAutoApprove db.agents p
  ( { db with proposals :=
        db.proposals.map (fun p => if hit p then approveBySystem now p else p) },
    (db.proposals.filter hit).length )

/- ── Inbound board sync (plugins/mission-control/hooks.py `on_tick_sync`
     and engine/orchestrator.py `_sync_mission_control`) ── -/

/-- Embeds `sync_tasks_for_project` (integrations/mission_control.py):
the board's tasks filtered to status inbox / in_progress. -/
def syncTasksForProject (boardTasks : String → List Task) (board_id : String) :
    List Task :=
  (boardTasks board_id).filter
    (fun t => t.status == some "inbox" || t.status == some "in_progress")

/-- The `priority_map` of the sync loop with its `.get(..., MEDIUM)`
default, applied to `task.get("priority", "medium").lower()`. -/
def priorityOfString (s : String) : ProposalPriority :=
  let low := String.mk (lowerChars s)
  if low = "critical" then .critical
  else if low = "high" then .high
  else if low = "medium" then .medium
  else if low = "low" then .low
  else .medium

/-- The body of the per-task loop shared by `on_tick_sync` (plugin hooks)
and `_sync_mission_control` (orchestrator): skip tasks without an id,
skip tasks for which a proposal with that `mc_task_id` already exists
(the session autoflushes pending adds, so proposals added earlier in the
same sync are visible to the duplicate query), otherwise add a PENDING
proposal with the mapped priority, `auto_approve` for critical/high, and
the task id recorded as the deduplication key. -/
def syncedProposal (now : Int) (project : Project) (default_agent : Agent)
    (board_id : String) (db : DB) (t : Task) : Proposal :=
  let mc_task_id := t.id.getD ""
  let priority := priorityOfString (t.priority.getD "medium")
  { id := db.freshId
    agent_id := default_agent.id
    project_id := project.id
    title := t.title.getD "Untitled MC Task"
    description := t.description.getD ""
    rationale := "Synced from Mission Control task " ++ mc_task_id
    priority := priority
    status := .pending
    auto_approve := priority == .critical || priority == .high
    reviewed_by := none
    reviewed_at := none
    mc_task_id := some mc_task_id
    mc_board_id := some board_id
    created_at := now }

/-- One task iteration of the sync loop: skip, dedup-skip, or add the
proposal built by `syncedProposal`. -/
def syncTask (now : Int) (project : Project) (default_agent : Agent)
    (board_id : String) (db : DB) (t : Task) : DB :=
  if t.id.getD "" = "" then db
  else if db.proposals.any (fun p => p.mc_task_id == some (t.id.getD "")) then db
  else
    { db with
        proposals := db.proposals ++
          [syncedProposal now project default_agent board_id db t],
        next_id := db.next_id + 1 }

/-- The per-board work after the project and default agent are resolved:
fetch the open tasks and run the task loop. -/
def processBoardTasks (boardTasks : String → List Task) (now : Int)
    (project : Project) (default_agent : Agent) (board_id : String)
    (db : DB) : DB :=
  (syncTasksForProject boardTasks board_id).foldl
    (syncTask now project default_agent board_id) db

/-- One `(board_id, project_slug)` iteration of the plugin hook
`on_tick_sync` (plugins/mission-control/hooks.py): resolve the project by
slug, skip missing or DECOMMISSIONED projects, resolve the first ACTIVE
agent of the project, then run the task loop. -/
def syncBoardHook (boardTasks : String → List Task) (now : Int)
    (db : DB) (entry : String × String) : DB :=
  match db.projects.find? (fun pr => pr.slug == entry.snd) with
  | none => db
  | some project =>
    if project.status == .decommissioned then db
    else
      match db.agents.find?
          (fun a => a.project_id == project.id && a.status == .active) with
      | none => db
      | some default_agent =>
        processBoardTasks boardTasks now project default_agent entry.fst db

/-- Embeds the plugin hook `on_tick_sync`
(plugins/mission-control/hooks.py): the per-board loop over
`BOARD_PROJECT_MAP`. -/
def onTickSync (boardTasks : String → List Task)
    (board_map : List (String × String)) (now : Int) (db : DB) : DB :=
  board_map.foldl (syncBoardHook boardTasks now) db

/-- One `(board_id, project_slug)` iteration of the orchestrator's inline
`_sync_mission_control` (engine/orchestrator.py). It differs from
`syncBoardHook` in exactly one point: it does not check the project's
status, so DECOMMISSIONED projects are synced too. -/
def syncBoardInline (boardTasks : String → List Task) (now : Int)
    (db : DB) (entry : String × String) : DB :=
  match db.projects.find? (fun pr => pr.slug == entry.snd) with
  | none => db
  | some project =>
    match db.agents.find?
        (fun a => a.project_id == project.id && a.status == .active) with
    | none => db
    | some default_agent =>
      processBoardTasks boardTasks now project default_agent entry.fst db

/-- Embeds `OrchestrationEngine._sync_mission_control`
(engine/orchestrator.py): the per-board loop over `BOARD_PROJECT_MAP`,
without the decommissioned-project check of the plugin hook. -/
def syncMissionControl (ext : Ext) (now : Int) (db : DB) : DB :=
  ext.board_map.foldl (syncBoardInline ext.boardTasks now) db

end AgentLoop

namespace AgentLoop

/- ── TriggerEvaluator (engine/orchestrator.py) ── -/

/-- Embeds `OrchestrationEngine._check_event_conditions`: every `(k, v)`
pair of the conditions dict must be present in the event payload with an
equal value. -/
def checkEventConditions (e : Event) (conditions : Dict) : Bool :=
  conditions.all (fun kv => pyLookup e.payload kv.fst == some kv.snd)

/-- Embeds `OrchestrationEngine._match_events_to_trigger`: keep the
events of the trigger's project whose type matches
`pattern["event_type"]` (when present) and whose payload satisfies
`pattern["conditions"]` (when present). -/
def matchEventsToTrigger (events : List Event) (t : Trigger) : List Event :=
  events.filter (fun e =>
    e.project_id == t.project_id
    && (match t.event_pattern.event_type with
        | some et => e.event_type == et
        | none => true)
    && (match t.event_pattern.conditions with
        | some conds => checkEventConditions e conds
        | none => true))

/-- The step row built by `_create_step_from_trigger`, with the
`action.get` defaults (`title`, `description`, `step_type="other"`,
`order_index=999`) and the `Step` column defaults (status PENDING,
`created_at=now`). -/
def stepFromAction (now : Int) (db : DB) (act : TriggerAction)
    (mission : Mission) (ty : StepType) : Step :=
  { id := db.freshId
    mission_id := mission.id
    order_index := act.order_index.getD 999
    title := act.title.getD "Auto-generated step"
    description := act.description.getD "Generated by trigger"
    step_type := ty
    status := .pending
    claimed_by_agent_id := none
    output := none
    error := none
    started_at := none
    completed_at := none
    created_at := now }

/-- Embeds `OrchestrationEngine._create_step_from_trigger`: scan the
matching events for the first payload carrying a `"mission_id"` that
resolves to an existing mission, and add one step to that mission built
from the action parameters; `(db, false)` when no event yields a mission.
A payload `"mission_id"` that is not a string fails the `UUID(...)`
parse, and an action `step_type` outside the `StepType` members fails
validation; both raise, which the per-trigger handler upstream records as
an error (the scan raises before any row is added). -/
def createStepFromTrigger (now : Int) (act : TriggerAction) (db : DB) :
    List Event → Except String (DB × Bool)
  | [] => .ok (db, false)
  | e :: rest =>
    match pyLookup e.payload "mission_id" with
    | none => createStepFromTrigger now act db rest
    | some (.str s) =>
      match db.missions.find? (fun m => m.id == s) with
      | none => createStepFromTrigger now act db rest
      | some mission =>
        match stepTypeOfString (act.step_type.getD "other") with
        | none => .error "Failed to create step from trigger: invalid step_type"
        | some ty =>
          .ok ({ db with steps := db.steps ++ [stepFromAction now db act mission ty],
                         next_id := db.next_id + 1 }, true)
    | some _ => .error "Failed to create step from trigger: badly typed mission_id"

/-- The steps belonging to a mission
(`select(Step).where(Step.mission_id == mission.id)`). -/
def missionSteps (db : DB) (mission_id : String) : List Step :=
  db.steps.filter (fun s => s.mission_id == mission_id)

/-- Embeds `OrchestrationEngine._evaluate_mission_completion_from_trigger`:
scan the matching events for the first payload whose `"mission_id"`
resolves to an ACTIVE mission with a nonempty, all-COMPLETED step list;
mark that mission COMPLETED, record a `mission.completed` event and stop.
`(db, false)` when no event qualifies. -/
def evalMissionCompletionFromTrigger (now : Int) (db : DB) :
    List Event → Except String (DB × Bool)
  | [] => .ok (db, false)
  | e :: rest =>
    match pyLookup e.payload "mission_id" with
    | none => evalMissionCompletionFromTrigger now db rest
    | some (.str s) =>
      match db.missions.find? (fun m => m.id == s) with
      | some mission =>
        if mission.status == .active
            && !(missionSteps db mission.id).isEmpty
            && (missionSteps db mission.id).all (fun st => st.status == .completed)
        then
          .ok ({ db with
                  missions := db.missions.map (fun m =>
                    if m.id == mission.id
                    then { m with status := .completed, completed_at := some now }
                    else m),
                  events := db.events ++
                    [{ event_type := "mission.completed"
                       source_agent_id := mission.assigned_agent_id
                       project_id := mission.project_id
                       payload := [("mission_id", .str mission.id),
                                   ("proposal_id", .str mission.proposal_id)]
                       created_at := now }] }, true)
        else evalMissionCompletionFromTrigger now db rest
      | none => evalMissionCompletionFromTrigger now db rest
    | some _ => .error "Failed to evaluate mission completion: badly typed mission_id"

/-- Embeds `OrchestrationEngine._execute_trigger_action`: dispatch on
`action.get("type")`; unknown tags raise `ValueError`. -/
def executeTriggerAction (now : Int) (t : Trigger) (events : List Event)
    (db : DB) : Except String (DB × Bool) :=
  match t.action.type with
  | some "create_step" => createStepFromTrigger now t.action db events
  | some "evaluate_mission_completion" => evalMissionCompletionFromTrigger now db events
  | some other => .error ("Unknown trigger action type: " ++ other)
  | none => .error "Unknown trigger action type: None"

/-- `trigger.last_fired_at = datetime.utcnow()` after a successful
action. -/
def setTriggerFired (db : DB) (trigger_id : String) (now : Int) : DB :=
  { db with triggers := db.triggers.map (fun t =>
      if t.id == trigger_id then { t with last_fired_at := some now } else t) }

/-- The counters and errors `_evaluate_triggers` accumulates. -/
structure TriggerStats where
  evaluated : Nat
  fired : Nat
  actions_executed : Nat
  errors : List String
deriving DecidableEq, Repr

/-- One iteration of the per-trigger loop in
`OrchestrationEngine._evaluate_triggers`: count the evaluation, match
the recent events, and when any match execute the action — recording a
fire and the `last_fired_at` update on success `True`, leaving state
untouched on success `False`, and appending the exception text to the
errors on a raise (the action's raise points precede its mutations). -/
def evalTriggerStep (now : Int) (recent : List Event)
    (acc : DB × TriggerStats) (t : Trigger) : DB × TriggerStats :=
  let db := acc.fst
  let st := { acc.snd with evaluated := acc.snd.evaluated + 1 }
  let matching := matchEventsToTrigger recent t
  if matching.isEmpty then (db, st)
  else
    match executeTriggerAction now t matching db with
    | .ok (db2, true) =>
      (setTriggerFired db2 t.id now,
       { st with fired := st.fired + 1,
                 actions_executed := st.actions_executed + 1 })
    | .ok (db2, false) => (db2, st)
    | .error msg =>
      (db, { st with errors :=
               st.errors ++ ["Failed to execute trigger " ++ t.name ++ ": " ++ msg] })

/-- Embeds `OrchestrationEngine._evaluate_triggers`: fold the per-trigger
loop over the enabled triggers, against the events of the last five
minutes (both queried once, before the loop). -/
def evaluateTriggers (now : Int) (db : DB) : DB × TriggerStats :=
  let enabled := db.triggers.filter (fun t => t.enabled)
  let recent := db.events.filter (fun e => now - 300 ≤ e.created_at)
  enabled.foldl (evalTriggerStep now recent) (db, ⟨0, 0, 0, []⟩)

end AgentLoop

namespace AgentLoop

/- ── Mission materialization and closing (engine/orchestrator.py) ── -/

/-- Embeds `OrchestrationEngine._create_missions_from_proposals`: for
every APPROVED proposal without an existing mission, add a PLANNED
mission assigned to the proposal's agent; returns the number of missions
created. The proposals table is read once; the duplicate query sees
missions added earlier in the same loop. -/
def createMissionsFromProposals (db : DB) : DB × Nat :=
  let approved := db.proposals.filter (fun p => p.status == .approved)
  let step := fun (acc : DB × Nat) (p : Proposal) =>
    let db := acc.fst
    if db.missions.any (fun m => m.proposal_id == p.id) then acc
    else
      ({ db with
          missions := db.missions ++
            [{ id := db.freshId
               proposal_id := p.id
               project_id := p.project_id
               title := p.title
               description := p.description
               status := .planned
               assigned_agent_id := some p.agent_id
               completed_at := none }],
          next_id := db.next_id + 1 }, acc.snd + 1)
  approved.foldl step (db, 0)

/-- The default four-step plan of
`OrchestrationEngine._create_steps_from_missions`, as
(title, description-prefix, type, order) rows applied to the mission
title. -/
def defaultStepPlan (mission : Mission) : List (String × String × StepType × Int) :=
  [("Research and Planning",
    "Research and plan the implementation of: " ++ mission.title, .research, 0),
   ("Implementation", "Implement the solution for: " ++ mission.title, .code, 1),
   ("Testing", "Test the implementation of: " ++ mission.title, .testing, 2),
   ("Review", "Review and validate: " ++ mission.title, .review, 3)]

/-- Embeds `OrchestrationEngine._create_steps_from_missions`: every
PLANNED mission without steps receives the default four-step plan and
becomes ACTIVE; returns the number of steps created. -/
def createStepsFromMissions (now : Int) (db : DB) : DB × Nat :=
  let planned := db.missions.filter (fun m => m.status == .planned)
  let step := fun (acc : DB × Nat) (m : Mission) =>
    let db := acc.fst
    if db.steps.any (fun s => s.mission_id == m.id) then acc
    else
      let mkStep := fun (i : Nat) (row : String × String × StepType × Int) =>
        { id := "row-" ++ toString (db.next_id + i)
          mission_id := m.id
          order_index := row.snd.snd.snd
          title := row.fst
          description := row.snd.fst
          step_type := row.snd.snd.fst
          status := .pending
          claimed_by_agent_id := none
          output := none
          error := none
          started_at := none
          completed_at := none
          created_at := now : Step }
      ({ db with
          steps := db.steps ++ ((defaultStepPlan m).enum.map
            (fun rowi => mkStep rowi.fst rowi.snd)),
          missions := db.missions.map (fun m2 =>
            if m2.id == m.id then { m2 with status := .active } else m2),
          next_id := db.next_id + 4 }, acc.snd + 4)
  planned.foldl step (db, 0)

/- ── Outbound report (engine/orchestrator.py `_report_mission_to_mc`,
     integrations/mission_control.py) ── -/

/-- Embeds `report_agent_activity` (integrations/mission_control.py):
posts the comment `"[AgentLoop] {agent_name}: {action}"` to the task. -/
def reportAgentActivity (board_id task_id agent_name action : String) : BoardCall :=
  .comment board_id task_id ("[AgentLoop] " ++ agent_name ++ ": " ++ action)

/-- The orchestrator calls
`update_task_status(board_id, task_id, "review", comment=...)`, but
`update_task_status` in `integrations/mission_control.py` is declared
with only `(board_id, task_id, status)`, so the call raises `TypeError`
for the unexpected keyword argument before any request is issued; the
`except` in `_report_mission_to_mc` then swallows it. The repository's
own test (`test_mc_sync.test_update_task_status`) invokes the function
with the fourth, comment argument, so the three-parameter definition
contradicts it. -/
def updateTaskStatusWithComment (_board_id _task_id _status _comment : String) :
    Except String BoardCall :=
  .error "TypeError: update_task_status got an unexpected keyword argument"

/-- Embeds `OrchestrationEngine._report_mission_to_mc`: when the closed
mission's proposal carries both `mc_task_id` and `mc_board_id`, post the
activity comment and attempt the status update to `review`; the returned
trace lists the board calls actually issued. -/
def reportMissionToMC (db : DB) (mission : Mission) : List BoardCall :=
  match db.proposals.find? (fun p => p.id == mission.proposal_id) with
  | none => []
  | some proposal =>
    match proposal.mc_task_id, proposal.mc_board_id with
    | some task_id, some board_id =>
      let agent_name :=
        match mission.assigned_agent_id with
        | none => "AgentLoop"
        | some aid =>
          match db.agents.find? (fun a => a.id == aid) with
          | some a => a.name
          | none => "AgentLoop"
      let first := reportAgentActivity board_id task_id agent_name
        ("Mission completed: " ++ mission.title)
      match updateTaskStatusWithComment board_id task_id "review"
          ("Completed by " ++ agent_name ++ " via AgentLoop.") with
      | .ok second => [first, second]
      | .error _ => [first]
    | _, _ => []

/- ── Mission closing (engine/orchestrator.py `_check_mission_completions`) ── -/

/-- The closing condition of `_check_mission_completions`: an ACTIVE
mission with at least one step, all steps COMPLETED. -/
def shouldClose (db : DB) (m : Mission) : Bool :=
  m.status == .active
  && !(missionSteps db m.id).isEmpty
  && (missionSteps db m.id).all (fun s => s.status == .completed)

/-- The per-mission update of `_check_mission_completions`. -/
def closeMission (now : Int) (db : DB) (m : Mission) : Mission :=
  if shouldClose db m then { m with status := .completed, completed_at := some now }
  else m

/-- The `mission.completed` event recorded for a closing mission. -/
def missionCompletedEvent (now : Int) (m : Mission) : Event :=
  { event_type := "mission.completed"
    source_agent_id := m.assigned_agent_id
    project_id := m.project_id
    payload := [("mission_id", .str m.id), ("proposal_id", .str m.proposal_id)]
    created_at := now }

/-- Embeds `OrchestrationEngine._check_mission_completions`: every ACTIVE
mission whose nonempty step list is all COMPLETED becomes COMPLETED with
`completed_at=now`; one `mission.completed` event is recorded per closed
mission, and the outbound board report runs for each. The loop mutates
only the mission at hand and reads only the (unchanged) steps table, so
it is a pointwise map plus an append of the events of the closing
missions, in iteration order. Returns the closed-mission count and the
outbound board-call trace. -/
def checkMissionCompletions (now : Int) (db : DB) : DB × Nat × List BoardCall :=
  let closing := db.missions.filter (shouldClose db)
  ( { db with
      missions := db.missions.map (closeMission now db),
      events := db.events ++ closing.map (missionCompletedEvent now) },
    closing.length,
    closing.flatMap (reportMissionToMC db) )

/- ── Escalation (engine/orchestrator.py `_escalate_stuck_missions`) ── -/

/-- Modelled from the spec: `ask_user` posts
`{board_id, content, correlation_id}` to `/gateway/main/ask-user` (§6)
and, like the other `mc_post` wrappers, returns the parsed response or
`None` on transport failure (§7). The function is called from the
orchestrator and the plugin hooks and exercised by
`test_mc_sync.test_ask_user`, but its definition is missing from the
snapshot's `integrations/mission_control.py`. Success of the external
call is supplied by `Ext.askUserOk`. -/
def askUser (ext : Ext) (board_id content correlation_id : String) :
    Option BoardCall :=
  if ext.askUserOk board_id then some (.askUserMsg board_id content correlation_id)
  else none

/-- The stuck-mission message of `_escalate_stuck_missions` (the source
wraps the title and the advice question in single quotes; the quotes are
omitted here). `failed_step.error or "unknown"` falls back on both a
missing and an empty error string. -/
def stuckMessage (m : Mission) (failed_step : Step) : String :=
  "Mission " ++ m.title ++ " is stuck.\n" ++
  "Failed step: " ++ failed_step.title ++ " (" ++ failed_step.step_type.strVal ++ ")\n" ++
  "Error: " ++ (match failed_step.error with
                | some e => if e = "" then "unknown" else e
                | none => "unknown") ++
  "\n\nPlease advise: retry, skip, or cancel?"

/-- One iteration of the per-mission loop in
`_escalate_stuck_missions`: a stuck ACTIVE mission (some step FAILED,
none PENDING/RUNNING/CLAIMED) whose proposal has an `mc_board_id` gets
an ask-user call; when the call succeeds a `mission.escalated` event is
recorded. -/
def escalateStep (ext : Ext) (now : Int) (stepsTable : List Step)
    (proposals : List Proposal) (acc : DB × Nat) (m : Mission) : DB × Nat :=
  let db := acc.fst
  let steps := stepsTable.filter (fun s => s.mission_id == m.id)
  if steps.isEmpty then acc
  else
    let has_failed := steps.any (fun s => s.status == .failed)
    let has_pending := steps.any (fun s =>
      s.status == .pending || s.status == .running || s.status == .claimed)
    if has_failed && !has_pending then
      match proposals.find? (fun p => p.id == m.proposal_id) with
      | none => acc
      | some proposal =>
        match proposal.mc_board_id with
        | none => acc
        | some board_id =>
          match steps.find? (fun s => s.status == .failed) with
          | none => acc
          | some failed_step =>
            match askUser ext board_id (stuckMessage m failed_step)
                ("stuck-mission-" ++ m.id) with
            | some _ =>
              ({ db with events := db.events ++
                  [{ event_type := "mission.escalated"
                     source_agent_id := m.assigned_agent_id
                     project_id := m.project_id
                     payload := [("mission_id", .str m.id),
                                 ("failed_step_id", .str failed_step.id),
                                 ("reason", .str "stuck_failed_steps")]
                     created_at := now }] }, acc.snd + 1)
            | none => acc
    else acc

/-- Embeds `OrchestrationEngine._escalate_stuck_missions`: fold the
per-mission loop over the ACTIVE missions (queried once; the steps and
proposals it consults are not modified by the loop). -/
def escalateStuckMissions (ext : Ext) (now : Int) (db : DB) : DB × Nat :=
  let active := db.missions.filter (fun m => m.status == .active)
  active.foldl (escalateStep ext now db.steps db.proposals) (db, 0)

/- ── Retention (engine/orchestrator.py `_cleanup_old_data`) ── -/

/-- Embeds `OrchestrationEngine._cleanup_old_data`: delete events older
than 30 days, expire PENDING proposals older than 7 days; returns the
number of rows touched. -/
def cleanupOldData (now : Int) (db : DB) : DB × Nat :=
  let eventCutoff := now - 2592000
  let proposalCutoff := now - 604800
  let expireHit := fun (p : Proposal) =>
    p.status == .pending && decide (p.created_at < proposalCutoff)
  ( { db with
      events := db.events.filter (fun e => !decide (e.created_at < eventCutoff)),
      proposals := db.proposals.map (fun p =>
        if expireHit p then { p with status := .expired } else p) },
    (db.events.filter (fun e => decide (e.created_at < eventCutoff))).length
      + (db.proposals.filter expireHit).length )

/- ── The tick (engine/orchestrator.py `_run_tick`) ── -/

/-- `OrchestrationResult` from `schemas.py`. `duration_ms` is wall-clock
time in the source and is modelled as `0`; `events_processed` is
initialized to `0` by `_run_tick` and never incremented. -/
structure OrchestrationResult where
  triggers_evaluated : Nat
  triggers_fired : Nat
  events_processed : Nat
  actions_executed : Nat
  errors : List String
  duration_ms : Nat
deriving DecidableEq, Repr

/-- Embeds `OrchestrationEngine._run_tick`: the eight phases in order —
inbound sync, approvals, trigger evaluation, mission materialization,
step materialization, mission closing (with outbound report), stuck
escalation, retention — sharing one session. Each phase handles its own
exceptions (and with `ask_user` present, see `askUser`, none escapes),
so the surrounding catch-all of `_run_tick` stays idle and the errors
surfacing in the result are those the trigger evaluator collected. The
result carries the counters; the final state is the second component. -/
def runTick (ext : Ext) (now : Int) (db : DB) : OrchestrationResult × DB :=
  let db1 := syncMissionControl ext now db
  let approvals := processPendingApprovals now db1
  let triggers := evaluateTriggers now approvals.fst
  let missions := createMissionsFromProposals triggers.fst
  let steps := createStepsFromMissions now missions.fst
  let completions := checkMissionCompletions now steps.fst
  let escalation := escalateStuckMissions ext now completions.fst
  let cleanup := cleanupOldData now escalation.fst
  ( { triggers_evaluated := triggers.snd.evaluated
      triggers_fired := triggers.snd.fired
      events_processed := 0
      actions_executed := approvals.snd + triggers.snd.actions_executed
        + missions.snd + steps.snd + completions.snd.fst + escalation.snd
        + cleanup.snd
      errors := triggers.snd.errors
      duration_ms := 0 },
    cleanup.fst )

end AgentLoop

namespace AgentLoop

/- ── WorkerEngine (engine/worker.py) ── -/

/-- The outcome of `_load_agent_config` followed by
`config.get("capabilities", [])` inside `_can_agent_handle_step`: either
the checked capability list (a missing `capabilities` key reads as the
empty list via the `.get` default), or a raise while loading or checking
the config (e.g. a capability value the `in` operator rejects), which
the `except` of `_can_agent_handle_step` turns into the permissive
fallback. The YAML directory merge of `_load_agent_config` is external
state, so the loader is an explicit parameter of the worker functions. -/
inductive ConfigLoad where
  | ok (capabilities : List String)
  | raised
deriving DecidableEq, Repr

/-- The `step_capability_map` of `_can_agent_handle_step` with its
`.get(..., "general_work")` default. -/
def requiredCapability (ty : StepType) : String :=
  match ty with
  | .code => "write_code"
  | .testing => "run_tests"
  | .review => "review_code"
  | .deploy => "deploy_code"
  | .research => "research"
  | .other => "general_work"

/-- Embeds `WorkerEngine._can_agent_handle_step`: the required capability
or `general_work` must be among the agent's capabilities; a raise while
loading or checking the config allows the step (permissive fallback). -/
def canAgentHandleStep (cfg : ConfigLoad) (ty : StepType) : Bool :=
  match cfg with
  | .raised => true
  | .ok capabilities =>
    capabilities.contains (requiredCapability ty)
      || capabilities.contains "general_work"

/-- The selection predicate of the query in
`WorkerEngine._find_available_steps`: unclaimed or claimed by this agent,
status PENDING or CLAIMED, and the step's mission belongs to the agent's
project (the join `Step.mission.has(project_id=...)`). -/
def stepSelectable (db : DB) (agent : Agent) (s : Step) : Bool :=
  (s.claimed_by_agent_id == none || s.claimed_by_agent_id == some agent.id)
  && (s.status == .pending || s.status == .claimed)
  && (match db.missions.find? (fun m => m.id == s.mission_id) with
      | some m => m.project_id == agent.project_id
      | none => false)

/-- The `ORDER BY order_index ASC, created_at ASC` key of the selection
query, as a boolean total preorder. -/
def stepOrderLe (a b : Step) : Bool :=
  decide (a.order_index < b.order_index)
  || (a.order_index == b.order_index && decide (a.created_at ≤ b.created_at))

/-- Insertion into a list sorted by a boolean preorder, realizing the
store's `ORDER BY`. -/
def insertSorted {α : Type} (le : α → α → Bool) (a : α) : List α → List α
  | [] => [a]
  | b :: l => if le a b then a :: b :: l else b :: insertSorted le a l

/-- Sorting by a boolean preorder (insertion sort), realizing the store's
`ORDER BY`. -/
def sortByKey {α : Type} (le : α → α → Bool) (l : List α) : List α :=
  l.foldr (insertSorted le) []

/-- Embeds `WorkerEngine._find_available_steps`: the selectable steps of
the agent's project, ordered by `order_index` then `created_at`, then
filtered by the capability check. -/
def findAvailableSteps (loadConfig : Agent → ConfigLoad) (db : DB)
    (agent : Agent) : List Step :=
  ((sortByKey stepOrderLe (db.steps.filter (stepSelectable db agent))).filter
    (fun s => canAgentHandleStep (loadConfig agent) s.step_type))

/- ── Step dispatch (engine/worker.py `_dispatch_to_gateway`,
     integrations/openclaw.py) ── -/

/-- The JSON the gateway CLI returns, as read by `_dispatch_to_gateway`:
`result.get("status", "unknown")` and the text payloads that
`extract_response_text` joins. -/
structure CliResult where
  status : Option String
  payload_texts : List String
deriving DecidableEq, Repr

/-- Embeds `GatewayClient.extract_response_text`
(integrations/openclaw.py): join the payload texts with newlines, or the
empty string when there are none. -/
def extractResponseText (r : CliResult) : String :=
  if r.payload_texts.isEmpty then ""
  else String.intercalate "\n" r.payload_texts

/-- How the external dispatch call ends: the CLI is not on the PATH
(`gateway_client.available` false), the call raises (`GatewayError` or
another exception), or it returns a parsed JSON result. -/
inductive DispatchOutcome where
  | unavailable
  | raised (msg : String)
  | returned (r : CliResult)
deriving DecidableEq, Repr

/-- Embeds `WorkerEngine._dispatch_to_gateway`: returns whether the
dispatch was handled (false falls through to the simulated path) and the
updated step. With a returned result: status `"ok"` with nonempty text
completes the step with the text as output; status `"ok"` with empty
text completes it with a placeholder output; any other status fails the
step with the error recorded. `completed_at` is set in all three
branches and the step is not retried. -/
def dispatchToGateway (outcome : DispatchOutcome) (now : Int) (step : Step) :
    Bool × Step :=
  match outcome with
  | .unavailable => (false, step)
  | .raised _ => (false, step)
  | .returned r =>
    let response_text := extractResponseText r
    let status := r.status.getD "unknown"
    if status = "ok" ∧ response_text ≠ "" then
      (true, { step with output := some response_text, status := .completed,
                         completed_at := some now })
    else if status = "ok" then
      (true, { step with output := some "Agent completed but returned no text output.",
                         status := .completed, completed_at := some now })
    else
      (true, { step with error := some ("Agent returned status: " ++ status),
                         status := .failed, completed_at := some now })

end AgentLoop

namespace AgentLoop

/- ── Shared helper lemmas ── -/

/-- A property preserved by every step of a fold is preserved by the
fold. -/
theorem foldl_preserves {α β : Type} {f : β → α → β} {P : β → Prop}
    (h : ∀ b a, P b → P (f b a)) :
    ∀ (l : List α) (b : β), P b → P (l.foldl f b) := by
  intro l
  induction l with
  | nil => intro b hb; exact hb
  | cons a rest ih => intro b hb; exact ih (f b a) (h b a hb)

/-- Sample entities used to instantiate hypotheses of the claim theorems
on concrete inputs. -/
def sampleProject : Project :=
  { id := "p1", name := "Test Project", slug := "test-project", status := .active }

def sampleAgent : Agent :=
  { id := "a1", name := "test-agent", role := "developer", status := .active,
    project_id := "p1", auto_approve_proposals := false }

def sampleMission : Mission :=
  { id := "m1", proposal_id := "pr1", project_id := "p1", title := "Fix login",
    description := "Fix the broken login flow", status := .active,
    assigned_agent_id := some "a1", completed_at := none }

def sampleStep : Step :=
  { id := "s1", mission_id := "m1", order_index := 0, title := "Implement fix",
    description := "Write the code fix", step_type := .code, status := .pending,
    claimed_by_agent_id := none, output := none, error := none,
    started_at := none, completed_at := none, created_at := 0 }

def sampleProposal : Proposal :=
  { id := "pr1", agent_id := "a1", project_id := "p1", title := "Fix login bug",
    description := "Fix the broken login flow", rationale := "Users cannot log in",
    priority := .medium, status := .pending, auto_approve := true,
    reviewed_by := none, reviewed_at := none, mc_task_id := none,
    mc_board_id := none, created_at := 0 }

/-- An external world with no boards configured and failing ask-user
transport. -/
def emptyExt : Ext :=
  { board_map := [], boardTasks := fun _ => [], askUserOk := fun _ => false }

/- ── C10 ── -/

/-- C10: an agent whose config loads without error but yields an empty
capability list — or one containing neither the required capability nor
`general_work` — handles no step, and step selection returns nothing for
it; the permissive fallback of `_can_agent_handle_step` applies only when
loading or checking the config raises, not when the list is empty. -/
theorem empty_capabilities_no_steps :
    (∀ (caps : List String) (ty : StepType),
        requiredCapability ty ∉ caps → "general_work" ∉ caps →
        canAgentHandleStep (.ok caps) ty = false)
    ∧ (∀ ty : StepType, canAgentHandleStep (.ok []) ty = false)
    ∧ (∀ ty : StepType, canAgentHandleStep .raised ty = true)
    ∧ (∀ (db : DB) (agent : Agent),
        findAvailableSteps (fun _ => .ok []) db agent = []) := by
  refine ⟨?_, ?_, ?_, ?_⟩
  · intro caps ty hreq hgen
    have h1 : caps.contains (requiredCapability ty) = false := by
      rw [Bool.eq_false_iff]
      intro hc
      exact hreq (List.mem_of_elem_eq_true hc)
    have h2 : caps.contains "general_work" = false := by
      rw [Bool.eq_false_iff]
      intro hc
      exact hgen (List.mem_of_elem_eq_true hc)
    simp only [canAgentHandleStep, h1, h2, Bool.or_self]
  · intro ty
    simp [canAgentHandleStep]
  · intro ty
    rfl
  · intro db agent
    simp [findAvailableSteps, canAgentHandleStep, List.filter_eq_nil_iff]

/-- Witness for C10 at a concrete capability list, step type, store and
agent. -/
theorem empty_capabilities_no_steps_witness :
    canAgentHandleStep (.ok ["run_tests"]) .deploy = false
    ∧ canAgentHandleStep (.ok []) .code = false
    ∧ canAgentHandleStep .raised .deploy = true
    ∧ findAvailableSteps (fun _ => .ok [])
        { projects := [sampleProject], agents := [sampleAgent],
          proposals := [sampleProposal], missions := [sampleMission],
          steps := [sampleStep], events := [], triggers := [], next_id := 0 }
        sampleAgent = [] := by
  have h := empty_capabilities_no_steps
  exact ⟨h.1 ["run_tests"] .deploy (by decide) (by decide),
         h.2.1 .code, h.2.2.1 .deploy, h.2.2.2 _ sampleAgent⟩

/- ── C7 ── -/

/-- C7 counterexample: a dispatcher response with status `"ok"` and an
empty text payload does not fail the step — `_dispatch_to_gateway` marks
it COMPLETED with a placeholder output, contradicting the claim that an
empty text payload yields FAILED. -/
theorem dispatch_empty_text_completes :
    (dispatchToGateway (.returned { status := some "ok", payload_texts := [] })
        7 sampleStep).snd.status = .completed
    ∧ (dispatchToGateway (.returned { status := some "ok", payload_texts := [] })
        7 sampleStep).snd.output
        = some "Agent completed but returned no text output."
    ∧ StepStatus.completed ≠ StepStatus.failed := by
  refine ⟨rfl, rfl, by decide⟩

/-- C7 as amended: for a returned dispatcher result the step is terminal
and not retried (the dispatch is reported handled); a status other than
`"ok"` fails the step with the error and `completed_at` populated; status
`"ok"` completes it with `completed_at` set, storing the text as output
when nonempty and a placeholder output otherwise. -/
theorem dispatch_interpretation (r : CliResult) (now : Int) (s : Step) :
    (dispatchToGateway (.returned r) now s).fst = true
    ∧ (r.status.getD "unknown" ≠ "ok" →
        (dispatchToGateway (.returned r) now s).snd.status = .failed
        ∧ (dispatchToGateway (.returned r) now s).snd.error
            = some ("Agent returned status: " ++ r.status.getD "unknown")
        ∧ (dispatchToGateway (.returned r) now s).snd.completed_at = some now)
    ∧ (r.status.getD "unknown" = "ok" →
        (dispatchToGateway (.returned r) now s).snd.status = .completed
        ∧ (dispatchToGateway (.returned r) now s).snd.completed_at = some now
        ∧ (extractResponseText r ≠ "" →
            (dispatchToGateway (.returned r) now s).snd.output
              = some (extractResponseText r))
        ∧ (extractResponseText r = "" →
            (dispatchToGateway (.returned r) now s).snd.output
              = some "Agent completed but returned no text output.")) := by
  unfold dispatchToGateway
  by_cases hok : r.status.getD "unknown" = "ok"
  · by_cases htext : extractResponseText r = ""
    · simp [hok, htext]
    · simp [hok, htext]
  · simp [hok]

/-- A dispatcher result with a non-ok status and one with text output,
for the C7 witness. -/
def errorCliResult : CliResult := { status := some "error", payload_texts := [] }

def okCliResult : CliResult := { status := some "ok", payload_texts := ["done"] }

/-- Witness for C7's amended theorem at concrete dispatcher results. -/
theorem dispatch_interpretation_witness :
    (dispatchToGateway (.returned errorCliResult) 3 sampleStep).snd.status = .failed
    ∧ (dispatchToGateway (.returned okCliResult) 3 sampleStep).snd.output
        = some "done" := by
  refine ⟨((dispatch_interpretation errorCliResult 3 sampleStep).2.1 (by decide)).1, ?_⟩
  have h := ((dispatch_interpretation okCliResult
      3 sampleStep).2.2 (by decide)).2.2.1 (by decide)
  simpa [extractResponseText, okCliResult] using h

end AgentLoop

namespace AgentLoop

/- ── Sorting lemmas for the ORDER BY embedding ── -/

theorem mem_insertSorted {α : Type} {le : α → α → Bool} {a x : α} :
    ∀ {l : List α}, x ∈ insertSorted le a l ↔ x = a ∨ x ∈ l := by
  intro l
  induction l with
  | nil => simp [insertSorted]
  | cons b l ih =>
    unfold insertSorted
    split_ifs with h
    · simp
    · simp only [List.mem_cons, ih]
      tauto

theorem pairwise_insertSorted {α : Type} {le : α → α → Bool}
    (htot : ∀ a b, le a b || le b a)
    (htrans : ∀ a b c, le a b = true → le b c = true → le a c = true)
    (a : α) :
    ∀ {l : List α}, l.Pairwise (fun x y => le x y = true) →
      (insertSorted le a l).Pairwise (fun x y => le x y = true) := by
  intro l
  induction l with
  | nil =>
    intro _
    simp [insertSorted]
  | cons b l ih =>
    intro hp
    rw [List.pairwise_cons] at hp
    unfold insertSorted
    split_ifs with h
    · rw [List.pairwise_cons]
      refine ⟨?_, List.pairwise_cons.mpr hp⟩
      intro x hx
      rcases List.mem_cons.mp hx with hxb | hxl
      · exact hxb ▸ h
      · exact htrans a b x h (hp.1 x hxl)
    · rw [List.pairwise_cons]
      refine ⟨?_, ih hp.2⟩
      intro x hx
      rcases mem_insertSorted.mp hx with hxa | hxl
      · subst hxa
        have hor := htot x b
        rcases Bool.or_eq_true_iff.mp hor with h1 | h2
        · exact absurd h1 h
        · exact h2
      · exact hp.1 x hxl

theorem mem_sortByKey {α : Type} {le : α → α → Bool} {x : α} :
    ∀ {l : List α}, x ∈ sortByKey le l ↔ x ∈ l := by
  intro l
  induction l with
  | nil => simp [sortByKey]
  | cons b l ih =>
    have hstep : sortByKey le (b :: l) = insertSorted le b (sortByKey le l) := rfl
    rw [hstep, mem_insertSorted, ih]
    simp

theorem pairwise_sortByKey {α : Type} {le : α → α → Bool}
    (htot : ∀ a b, le a b || le b a)
    (htrans : ∀ a b c, le a b = true → le b c = true → le a c = true) :
    ∀ (l : List α), (sortByKey le l).Pairwise (fun x y => le x y = true) := by
  intro l
  induction l with
  | nil => simp [sortByKey]
  | cons b l ih =>
    have hstep : sortByKey le (b :: l) = insertSorted le b (sortByKey le l) := rfl
    rw [hstep]
    exact pairwise_insertSorted htot htrans b ih

theorem stepOrderLe_total : ∀ a b : Step, stepOrderLe a b || stepOrderLe b a := by
  intro a b
  simp [stepOrderLe]
  omega

theorem stepOrderLe_trans : ∀ a b c : Step,
    stepOrderLe a b = true → stepOrderLe b c = true → stepOrderLe a c = true := by
  intro a b c hab hbc
  simp [stepOrderLe] at *
  omega

/- ── C8 ── -/

/-- C8: step selection returns only steps of the agent's project whose
status is PENDING or CLAIMED and whose `claimed_by_agent_id` is null or
this agent — never a step claimed by another agent — and the returned
list is ordered by `order_index` ascending, then `created_at`
ascending. -/
theorem step_selection_sound_and_ordered (loadConfig : Agent → ConfigLoad)
    (db : DB) (agent : Agent) :
    (∀ s ∈ findAvailableSteps loadConfig db agent,
        (s.status = .pending ∨ s.status = .claimed)
        ∧ (s.claimed_by_agent_id = none ∨ s.claimed_by_agent_id = some agent.id)
        ∧ (∃ m ∈ db.missions, s.mission_id = m.id ∧ m.project_id = agent.project_id)
        ∧ (∀ aid, s.claimed_by_agent_id = some aid → aid = agent.id))
    ∧ (findAvailableSteps loadConfig db agent).Pairwise
        (fun a b => stepOrderLe a b = true) := by
  constructor
  · intro s hs
    have hs2 : s ∈ sortByKey stepOrderLe (db.steps.filter (stepSelectable db agent)) :=
      (List.mem_filter.mp hs).1
    have hs3 : s ∈ db.steps.filter (stepSelectable db agent) := mem_sortByKey.mp hs2
    have hsel : stepSelectable db agent s = true := (List.mem_filter.mp hs3).2
    unfold stepSelectable at hsel
    simp only [Bool.and_eq_true, Bool.or_eq_true, beq_iff_eq] at hsel
    obtain ⟨⟨hclaim, hstatus⟩, hproj⟩ := hsel
    refine ⟨hstatus, hclaim, ?_, ?_⟩
    · revert hproj
      cases hfind : db.missions.find? (fun m => m.id == s.mission_id) with
      | none => intro h; exact absurd h (by simp)
      | some m =>
        intro h
        have hm : m ∈ db.missions := List.mem_of_find?_eq_some hfind
        have hid := List.find?_some hfind
        simp only [beq_iff_eq] at hid
        rw [beq_iff_eq] at h
        exact ⟨m, hm, hid.symm, h⟩
    · intro aid haid
      rcases hclaim with hnone | hsome
      · rw [haid] at hnone; cases hnone
      · rw [haid] at hsome
        injection hsome
  · exact List.Pairwise.filter _
      (pairwise_sortByKey stepOrderLe_total stepOrderLe_trans _)

/-- Witness for C8 at a concrete store: the single pending step of the
agent's project is returned with its selection facts. -/
theorem step_selection_sound_and_ordered_witness :
    (sampleStep.status = .pending ∨ sampleStep.status = .claimed)
    ∧ (sampleStep.claimed_by_agent_id = none
        ∨ sampleStep.claimed_by_agent_id = some sampleAgent.id) := by
  have h := (step_selection_sound_and_ordered (fun _ => .raised)
      { projects := [sampleProject], agents := [sampleAgent],
        proposals := [sampleProposal], missions := [sampleMission],
        steps := [sampleStep], events := [], triggers := [], next_id := 0 }
      sampleAgent).1 sampleStep (by decide)
  exact ⟨h.1, h.2.1⟩

/- ── C6 ── -/

/-- The store for the C6 evaluation: a completed mission whose proposal
carries `mc_board_id="b1"` and `mc_task_id="t1"`. -/
def mcLinkedProposal : Proposal :=
  { sampleProposal with status := .approved,
                        mc_task_id := some "t1", mc_board_id := some "b1" }

def mcReportDb : DB :=
  { projects := [sampleProject], agents := [sampleAgent],
    proposals := [mcLinkedProposal], missions := [sampleMission],
    steps := [], events := [], triggers := [], next_id := 0 }

/-- The store for the C6 evaluation with a proposal lacking the board
link. -/
def mcUnlinkedDb : DB :=
  { projects := [sampleProject], agents := [sampleAgent],
    proposals := [sampleProposal], missions := [sampleMission],
    steps := [], events := [], triggers := [], next_id := 0 }

/-- C6 evaluated at the failing input: for a closed mission whose
proposal has both board ids, `_report_mission_to_mc` posts the activity
comment but issues no status update — the `update_task_status` call
raises `TypeError` on the unexpected `comment` keyword argument and is
swallowed — so the board-call trace is exactly the comment and the
task's remote status is never set to `review`. A proposal lacking the
ids produces no board call, as the claim states. -/
theorem outbound_report_missing_status_update :
    reportMissionToMC mcReportDb sampleMission
      = [.comment "b1" "t1" "[AgentLoop] test-agent: Mission completed: Fix login"]
    ∧ reportMissionToMC mcUnlinkedDb sampleMission = [] := by
  constructor
  · rfl
  · rfl

end AgentLoop

namespace AgentLoop

/- ── C1: inbound-sync deduplication ── -/

/-- The number of proposals carrying a given `mc_task_id`. -/
def countTask (db : DB) (tid : String) : Nat :=
  (db.proposals.filter (fun p => p.mc_task_id == some tid)).length

/-- The dedup invariant of spec I5: at most one proposal per task id. -/
def UniqueMc (db : DB) : Prop := ∀ tid, countTask db tid ≤ 1

theorem countTask_eq_zero_of_any_false {db : DB} {tid : String}
    (h : db.proposals.any (fun p => p.mc_task_id == some tid) = false) :
    countTask db tid = 0 := by
  unfold countTask
  rw [List.length_eq_zero, List.filter_eq_nil_iff]
  intro p hp
  rw [List.any_eq_false] at h
  exact h p hp

theorem any_true_of_countTask_pos {db : DB} {tid : String}
    (h : 1 ≤ countTask db tid) :
    db.proposals.any (fun p => p.mc_task_id == some tid) = true := by
  by_contra hfalse
  rw [Bool.not_eq_true] at hfalse
  rw [countTask_eq_zero_of_any_false hfalse] at h
  omega

/-- `syncTask` with a fresh task id appends exactly the synced
proposal. -/
theorem syncTask_creates (now : Int) (project : Project)
    (default_agent : Agent) (board_id : String) (db : DB) (t : Task)
    (h0 : t.id.getD "" ≠ "")
    (h1 : db.proposals.any (fun p => p.mc_task_id == some (t.id.getD "")) = false) :
    syncTask now project default_agent board_id db t
      = { db with
          proposals := db.proposals ++
            [syncedProposal now project default_agent board_id db t],
          next_id := db.next_id + 1 } := by
  simp [syncTask, h0, h1]

/-- `syncTask` with an already-seen task id leaves the store unchanged. -/
theorem syncTask_skips (now : Int) (project : Project)
    (default_agent : Agent) (board_id : String) (db : DB) (t : Task)
    (h1 : db.proposals.any (fun p => p.mc_task_id == some (t.id.getD "")) = true) :
    syncTask now project default_agent board_id db t = db := by
  by_cases h0 : t.id.getD "" = "" <;> simp [syncTask, h0, h1]

theorem countTask_append_one {db : DB} {q : Proposal} {tid : String} :
    countTask { db with proposals := db.proposals ++ [q], next_id := db.next_id + 1 } tid
      = countTask db tid + (if q.mc_task_id == some tid then 1 else 0) := by
  unfold countTask
  simp only [List.filter_append, List.length_append]
  by_cases h : q.mc_task_id == some tid <;> simp [h]

/-- `syncTask` preserves the dedup invariant. -/
theorem syncTask_preserves_unique (now : Int) (project : Project)
    (default_agent : Agent) (board_id : String) (db : DB) (t : Task)
    (h : UniqueMc db) :
    UniqueMc (syncTask now project default_agent board_id db t) := by
  intro tid
  by_cases h0 : t.id.getD "" = ""
  · simp [syncTask, h0]
    exact h tid
  · by_cases h1 : db.proposals.any (fun p => p.mc_task_id == some (t.id.getD "")) = true
    · rw [syncTask_skips now project default_agent board_id db t h1]
      exact h tid
    · rw [Bool.not_eq_true] at h1
      rw [syncTask_creates now project default_agent board_id db t h0 h1]
      rw [countTask_append_one]
      by_cases htid : tid = t.id.getD ""
      · subst htid
        rw [countTask_eq_zero_of_any_false h1]
        simp [syncedProposal]
      · have hne : ((syncedProposal now project default_agent board_id db t).mc_task_id
            == some tid) = false := by
          simp [syncedProposal]
          intro hcontra
          exact htid hcontra.symm
        rw [hne]
        simpa using h tid

/-- `processBoardTasks` preserves the dedup invariant. -/
theorem processBoardTasks_preserves_unique (boardTasks : String → List Task)
    (now : Int) (project : Project) (default_agent : Agent)
    (board_id : String) (db : DB) (h : UniqueMc db) :
    UniqueMc (processBoardTasks boardTasks now project default_agent board_id db) := by
  unfold processBoardTasks
  exact foldl_preserves
    (fun b a hb => syncTask_preserves_unique now project default_agent board_id b a hb)
    _ db h

/-- `syncBoardInline` preserves the dedup invariant. -/
theorem syncBoardInline_preserves_unique (boardTasks : String → List Task)
    (now : Int) (db : DB) (entry : String × String) (h : UniqueMc db) :
    UniqueMc (syncBoardInline boardTasks now db entry) := by
  unfold syncBoardInline
  split
  · exact h
  · split
    · exact h
    · apply processBoardTasks_preserves_unique
      exact h

/-- C1: during an inbound sync a PENDING proposal is created for a
fetched task exactly when no proposal with that `mc_task_id` exists —
the task loop appends the synced PENDING proposal carrying the task id
when the count for that id is zero (making it one), and leaves the store
untouched when a proposal with the id already exists — and a store in
which `mc_task_id` is unique keeps that uniqueness across
`_sync_mission_control`, hence across any number of successive inbound
syncs. -/
theorem sync_dedup_unique_mc_task_id :
    (∀ (now : Int) (project : Project) (default_agent : Agent)
        (board_id : String) (db : DB) (t : Task),
        t.id.getD "" ≠ "" →
        countTask db (t.id.getD "") = 0 →
        (syncTask now project default_agent board_id db t).proposals
          = db.proposals ++ [syncedProposal now project default_agent board_id db t]
        ∧ (syncedProposal now project default_agent board_id db t).status = .pending
        ∧ (syncedProposal now project default_agent board_id db t).mc_task_id
            = some (t.id.getD "")
        ∧ countTask (syncTask now project default_agent board_id db t)
            (t.id.getD "") = 1)
    ∧ (∀ (now : Int) (project : Project) (default_agent : Agent)
        (board_id : String) (db : DB) (t : Task),
        1 ≤ countTask db (t.id.getD "") →
        syncTask now project default_agent board_id db t = db)
    ∧ (∀ (ext : Ext) (now : Int) (db : DB),
        UniqueMc db → UniqueMc (syncMissionControl ext now db)) := by
  refine ⟨?_, ?_, ?_⟩
  · intro now project default_agent board_id db t h0 hcount
    have h1 : db.proposals.any (fun p => p.mc_task_id == some (t.id.getD "")) = false := by
      by_contra hc
      rw [Bool.not_eq_false] at hc
      rw [List.any_eq_true] at hc
      obtain ⟨p, hp, hpt⟩ := hc
      have : 0 < countTask db (t.id.getD "") := by
        unfold countTask
        rw [List.length_pos]
        intro hnil
        rw [List.filter_eq_nil_iff] at hnil
        exact hnil p hp hpt
      omega
    have hcreate := syncTask_creates now project default_agent board_id db t h0 h1
    refine ⟨by rw [hcreate], rfl, rfl, ?_⟩
    rw [hcreate, countTask_append_one, hcount]
    simp [syncedProposal]
  · intro now project default_agent board_id db t hcount
    exact syncTask_skips now project default_agent board_id db t
      (any_true_of_countTask_pos hcount)
  · intro ext now db h
    unfold syncMissionControl
    exact foldl_preserves
      (fun b a hb => syncBoardInline_preserves_unique ext.boardTasks now b a hb)
      _ db h

/-- A board returning one inbox task, for the C1 witness. -/
def sampleTask : Task :=
  { id := some "t1", title := some "X", description := none,
    status := some "inbox", priority := some "high" }

def emptyDb : DB :=
  { projects := [sampleProject], agents := [sampleAgent], proposals := [],
    missions := [], steps := [], events := [], triggers := [], next_id := 0 }

/-- Witness for C1 at a concrete store and task. -/
theorem sync_dedup_unique_mc_task_id_witness :
    (syncTask 0 sampleProject sampleAgent "b1" emptyDb sampleTask).proposals
      = [syncedProposal 0 sampleProject sampleAgent "b1" emptyDb sampleTask]
    ∧ countTask (syncTask 0 sampleProject sampleAgent "b1" emptyDb sampleTask) "t1" = 1
    ∧ UniqueMc (syncMissionControl
        { board_map := [("b1", "test-project")],
          boardTasks := fun _ => [sampleTask], askUserOk := fun _ => false }
        0 emptyDb) := by
  have h := sync_dedup_unique_mc_task_id
  have h1 := h.1 0 sampleProject sampleAgent "b1" emptyDb sampleTask
    (by decide) (by decide)
  refine ⟨by simpa [emptyDb] using h1.1, h1.2.2.2, ?_⟩
  exact h.2.2 _ 0 emptyDb (fun tid => by simp [countTask, emptyDb])

end AgentLoop

namespace AgentLoop

/- ── C5: decommissioned projects are skipped by the inbound sync ── -/

theorem syncTask_projects (now : Int) (project : Project) (default_agent : Agent)
    (board_id : String) (db : DB) (t : Task) :
    (syncTask now project default_agent board_id db t).projects = db.projects := by
  unfold syncTask
  split_ifs <;> rfl

theorem syncTask_proposals_shape (now : Int) (project : Project)
    (default_agent : Agent) (board_id : String) (db : DB) (t : Task) :
    (syncTask now project default_agent board_id db t).proposals = db.proposals
    ∨ (syncTask now project default_agent board_id db t).proposals
        = db.proposals ++ [syncedProposal now project default_agent board_id db t] := by
  unfold syncTask
  split_ifs with h0 h1
  · exact Or.inl rfl
  · exact Or.inl rfl
  · exact Or.inr rfl

theorem syncedProposal_project_id (now : Int) (project : Project)
    (default_agent : Agent) (board_id : String) (db : DB) (t : Task) :
    (syncedProposal now project default_agent board_id db t).project_id
      = project.id := rfl

/-- Equation lemmas for the four exits of `syncBoardHook`. -/
theorem syncBoardHook_no_project (boardTasks : String → List Task) (now : Int)
    (db : DB) (entry : String × String)
    (h : db.projects.find? (fun pr => pr.slug == entry.snd) = none) :
    syncBoardHook boardTasks now db entry = db := by
  unfold syncBoardHook
  rw [h]

theorem syncBoardHook_decommissioned (boardTasks : String → List Task) (now : Int)
    (db : DB) (entry : String × String) (project : Project)
    (h : db.projects.find? (fun pr => pr.slug == entry.snd) = some project)
    (hdec : project.status = .decommissioned) :
    syncBoardHook boardTasks now db entry = db := by
  unfold syncBoardHook
  rw [h]
  simp [hdec]

theorem syncBoardHook_no_agent (boardTasks : String → List Task) (now : Int)
    (db : DB) (entry : String × String) (project : Project)
    (h : db.projects.find? (fun pr => pr.slug == entry.snd) = some project)
    (hdec : (project.status == ProjectStatus.decommissioned) = false)
    (ha : db.agents.find?
      (fun a => a.project_id == project.id && a.status == .active) = none) :
    syncBoardHook boardTasks now db entry = db := by
  unfold syncBoardHook
  rw [h]
  simp only [hdec, Bool.false_eq_true, if_false, ha]

theorem syncBoardHook_runs (boardTasks : String → List Task) (now : Int)
    (db : DB) (entry : String × String) (project : Project)
    (default_agent : Agent)
    (h : db.projects.find? (fun pr => pr.slug == entry.snd) = some project)
    (hdec : (project.status == ProjectStatus.decommissioned) = false)
    (ha : db.agents.find?
      (fun a => a.project_id == project.id && a.status == .active)
      = some default_agent) :
    syncBoardHook boardTasks now db entry
      = processBoardTasks boardTasks now project default_agent entry.fst db := by
  unfold syncBoardHook
  rw [h]
  simp only [hdec, Bool.false_eq_true, if_false, ha]

/-- Through the task loop, the projects table is unchanged and every
appended proposal belongs to the project being synced. -/
theorem processBoardTasks_shape (boardTasks : String → List Task) (now : Int)
    (project : Project) (default_agent : Agent) (board_id : String) :
    ∀ (db : DB),
      (processBoardTasks boardTasks now project default_agent board_id db).projects
          = db.projects
      ∧ ∃ news,
          (processBoardTasks boardTasks now project default_agent board_id db).proposals
            = db.proposals ++ news
          ∧ ∀ q ∈ news, q.project_id = project.id := by
  intro db
  unfold processBoardTasks
  refine foldl_preserves (P := fun c => c.projects = db.projects
    ∧ ∃ news, c.proposals = db.proposals ++ news
      ∧ ∀ q ∈ news, q.project_id = project.id)
    ?_ _ db ⟨rfl, [], by simp⟩
  intro b t hb
  refine ⟨by rw [syncTask_projects]; exact hb.1, ?_⟩
  obtain ⟨news, hprop, hmem⟩ := hb.2
  rcases syncTask_proposals_shape now project default_agent board_id b t with hsame | happ
  · exact ⟨news, by rw [hsame, hprop], hmem⟩
  · refine ⟨news ++ [syncedProposal now project default_agent board_id b t], ?_, ?_⟩
    · rw [happ, hprop, List.append_assoc]
    · intro q hq
      rcases List.mem_append.mp hq with hq1 | hq2
      · exact hmem q hq1
      · rw [List.mem_singleton] at hq2
        rw [hq2]
        exact syncedProposal_project_id now project default_agent board_id b t

/-- C5: the inbound sync hook `on_tick_sync` skips DECOMMISSIONED
projects — a `(board_id, project_slug)` mapping whose resolved project is
DECOMMISSIONED is a no-op on the whole store, the sync never modifies the
projects table, and every proposal a sync appends belongs to a
non-DECOMMISSIONED project of the store. -/
theorem decommissioned_projects_skipped :
    (∀ (boardTasks : String → List Task) (now : Int) (db : DB)
        (entry : String × String) (project : Project),
        db.projects.find? (fun pr => pr.slug == entry.snd) = some project →
        project.status = .decommissioned →
        syncBoardHook boardTasks now db entry = db)
    ∧ (∀ (boardTasks : String → List Task) (board_map : List (String × String))
        (now : Int) (db : DB),
        (onTickSync boardTasks board_map now db).projects = db.projects
        ∧ ∃ news, (onTickSync boardTasks board_map now db).proposals
            = db.proposals ++ news
          ∧ ∀ q ∈ news, ∃ project ∈ db.projects,
              q.project_id = project.id ∧ project.status ≠ .decommissioned) := by
  constructor
  · intro boardTasks now db entry project hfind hdec
    exact syncBoardHook_decommissioned boardTasks now db entry project hfind hdec
  · intro boardTasks board_map now db
    unfold onTickSync
    refine foldl_preserves (P := fun b => b.projects = db.projects
      ∧ ∃ news, b.proposals = db.proposals ++ news
        ∧ ∀ q ∈ news, ∃ project ∈ db.projects,
            q.project_id = project.id ∧ project.status ≠ .decommissioned)
      ?_ board_map db ⟨rfl, [], by simp⟩
    intro b entry hb
    cases hfind : b.projects.find? (fun pr => pr.slug == entry.snd) with
    | none => rw [syncBoardHook_no_project boardTasks now b entry hfind]; exact hb
    | some project =>
      have hprojmem : project ∈ db.projects := by
        rw [hb.1] at hfind
        exact List.mem_of_find?_eq_some hfind
      by_cases hdec : project.status = ProjectStatus.decommissioned
      · rw [syncBoardHook_decommissioned boardTasks now b entry project hfind hdec]
        exact hb
      · have hdecb : (project.status == ProjectStatus.decommissioned) = false := by
          simp [hdec]
        cases hagent : b.agents.find?
            (fun a => a.project_id == project.id && a.status == .active) with
        | none =>
          rw [syncBoardHook_no_agent boardTasks now b entry project hfind hdecb hagent]
          exact hb
        | some default_agent =>
          rw [syncBoardHook_runs boardTasks now b entry project default_agent
            hfind hdecb hagent]
          have hshape := processBoardTasks_shape boardTasks now project default_agent
            entry.fst b
          refine ⟨by rw [hshape.1]; exact hb.1, ?_⟩
          obtain ⟨news, hprop, hmem⟩ := hb.2
          obtain ⟨news2, hprop2, hmem2⟩ := hshape.2
          refine ⟨news ++ news2, ?_, ?_⟩
          · rw [hprop2, hprop, List.append_assoc]
          · intro q hq
            rcases List.mem_append.mp hq with hq1 | hq2
            · exact hmem q hq1
            · exact ⟨project, hprojmem, hmem2 q hq2, hdec⟩

/-- A decommissioned project and a store containing it, for the C5
witness. -/
def deadProject : Project :=
  { id := "p9", name := "Dead", slug := "dead-proj", status := .decommissioned }

def deadDb : DB :=
  { projects := [deadProject], agents := [sampleAgent], proposals := [],
    missions := [], steps := [], events := [], triggers := [], next_id := 0 }

/-- Witness for C5: the board mapping of a decommissioned project is a
no-op on a concrete store. -/
theorem decommissioned_projects_skipped_witness :
    syncBoardHook (fun _ => [sampleTask]) 0 deadDb ("b1", "dead-proj") = deadDb := by
  exact decommissioned_projects_skipped.1 (fun _ => [sampleTask]) 0 deadDb
    ("b1", "dead-proj") deadProject (by decide) (by decide)

end AgentLoop

namespace AgentLoop

/- ── C9: the create_step trigger action ── -/

/-- The mission the event scan of `_create_step_from_trigger` settles on:
the first matching event whose payload carries a `"mission_id"` resolving
to an existing mission. -/
def findCreateTarget (db : DB) : List Event → Option Mission
  | [] => none
  | e :: rest =>
    match pyLookup e.payload "mission_id" with
    | none => findCreateTarget db rest
    | some (.str s) =>
      match db.missions.find? (fun m => m.id == s) with
      | some mission => some mission
      | none => findCreateTarget db rest
    | some _ => none

/-- When every `"mission_id"` in the matching events is a string (so the
`UUID` parse cannot raise), `_create_step_from_trigger` adds exactly the
step built from the action parameters to the mission the scan settles
on. -/
theorem createStepFromTrigger_creates (now : Int) (act : TriggerAction)
    (db : DB) (mission : Mission) (ty : StepType)
    (hty : stepTypeOfString (act.step_type.getD "other") = some ty) :
    ∀ (events : List Event),
      (∀ e ∈ events, ∀ v, pyLookup e.payload "mission_id" = some v →
        ∃ s, v = PyVal.str s) →
      findCreateTarget db events = some mission →
      createStepFromTrigger now act db events
        = .ok ({ db with steps := db.steps ++ [stepFromAction now db act mission ty],
                         next_id := db.next_id + 1 }, true) := by
  intro events
  induction events with
  | nil =>
    intro _ htarget
    simp [findCreateTarget] at htarget
  | cons e rest ih =>
    intro hstr htarget
    have hstr2 : ∀ e2 ∈ rest, ∀ v, pyLookup e2.payload "mission_id" = some v →
        ∃ s, v = PyVal.str s :=
      fun e2 he2 v hv => hstr e2 (List.mem_cons_of_mem e he2) v hv
    unfold createStepFromTrigger
    unfold findCreateTarget at htarget
    cases hlook : pyLookup e.payload "mission_id" with
    | none =>
      rw [hlook] at htarget
      dsimp only at htarget ⊢
      exact ih hstr2 htarget
    | some v =>
      obtain ⟨s, hs⟩ := hstr e (List.mem_cons_self e rest) v hlook
      subst hs
      rw [hlook] at htarget
      dsimp only at htarget ⊢
      cases hfind : db.missions.find? (fun m => m.id == s) with
      | none =>
        rw [hfind] at htarget
        dsimp only at htarget ⊢
        exact ih hstr2 htarget
      | some mission0 =>
        rw [hfind] at htarget
        dsimp only at htarget ⊢
        have hmiss : mission0 = mission := by
          injection htarget
        subst hmiss
        rw [hty]

/-- When no matching event's payload carries `"mission_id"`, the action
is a no-op returning success `False`. -/
theorem createStepFromTrigger_noop (now : Int) (act : TriggerAction) (db : DB) :
    ∀ (events : List Event),
      (∀ e ∈ events, pyLookup e.payload "mission_id" = none) →
      createStepFromTrigger now act db events = .ok (db, false) := by
  intro events
  induction events with
  | nil => intro _; rfl
  | cons e rest ih =>
    intro hnone
    unfold createStepFromTrigger
    rw [hnone e (List.mem_cons_self e rest)]
    exact ih (fun e2 he2 => hnone e2 (List.mem_cons_of_mem e he2))

/-- C9: an enabled trigger with a `create_step` action, matching a recent
event whose payload carries the id of an existing mission, makes the
tick add exactly one new step on that mission with title, description,
`step_type` and `order_index` taken from the action parameters
(`step_type` defaulting to OTHER, `order_index` to 999); the action is a
no-op when `mission_id` is absent from every matching event's payload;
and after a successful action the trigger's `last_fired_at` is `now`. -/
theorem create_step_trigger_behavior :
    (∀ (now : Int) (act : TriggerAction) (db : DB) (mission : Mission)
        (ty : StepType) (events : List Event),
        stepTypeOfString (act.step_type.getD "other") = some ty →
        (∀ e ∈ events, ∀ v, pyLookup e.payload "mission_id" = some v →
          ∃ s, v = PyVal.str s) →
        findCreateTarget db events = some mission →
        createStepFromTrigger now act db events
          = .ok ({ db with
                    steps := db.steps ++ [stepFromAction now db act mission ty],
                    next_id := db.next_id + 1 }, true)
        ∧ (stepFromAction now db act mission ty).mission_id = mission.id
        ∧ (stepFromAction now db act mission ty).title
            = act.title.getD "Auto-generated step"
        ∧ (stepFromAction now db act mission ty).description
            = act.description.getD "Generated by trigger"
        ∧ (stepFromAction now db act mission ty).order_index
            = act.order_index.getD 999
        ∧ (stepFromAction now db act mission ty).status = .pending
        ∧ (act.step_type = none → ty = .other)
        ∧ (act.order_index = none →
            (stepFromAction now db act mission ty).order_index = 999))
    ∧ (∀ (now : Int) (act : TriggerAction) (db : DB) (events : List Event),
        (∀ e ∈ events, pyLookup e.payload "mission_id" = none) →
        createStepFromTrigger now act db events = .ok (db, false))
    ∧ (∀ (now : Int) (recent : List Event) (db : DB) (st : TriggerStats)
        (t : Trigger) (db2 : DB),
        (matchEventsToTrigger recent t).isEmpty = false →
        executeTriggerAction now t (matchEventsToTrigger recent t) db
          = .ok (db2, true) →
        ∀ t2 ∈ (evalTriggerStep now recent (db, st) t).fst.triggers,
          t2.id = t.id → t2.last_fired_at = some now) := by
  refine ⟨?_, createStepFromTrigger_noop, ?_⟩
  · intro now act db mission ty events hty hstr htarget
    refine ⟨createStepFromTrigger_creates now act db mission ty hty events hstr htarget,
      rfl, rfl, rfl, rfl, rfl, ?_, ?_⟩
    · intro hnone
      rw [hnone] at hty
      simp [stepTypeOfString] at hty
      exact hty.symm
    · intro hnone
      simp [stepFromAction, hnone]
  · intro now recent db st t db2 hmatch hexec
    unfold evalTriggerStep
    simp only [hmatch, Bool.false_eq_true, if_false, hexec]
    intro t2 ht2 hid
    unfold setTriggerFired at ht2
    simp only at ht2
    rw [List.mem_map] at ht2
    obtain ⟨t0, _, ht0⟩ := ht2
    by_cases hbeq : (t0.id == t.id) = true
    · rw [if_pos hbeq] at ht0
      rw [← ht0]
    · rw [if_neg hbeq] at ht0
      rw [← ht0] at hid
      rw [beq_iff_eq] at hbeq
      exact absurd hid hbeq

/-- A trigger, a matching event and a store for the C9 witness. -/
def deployAction : TriggerAction :=
  { type := some "create_step", title := some "Auto-deploy",
    description := none, step_type := some "deploy", order_index := some 99 }

def deployTrigger : Trigger :=
  { id := "tr1", project_id := "p1", name := "test-trigger",
    event_pattern := { event_type := some "step.completed", conditions := none },
    action := deployAction, enabled := true, last_fired_at := none }

def stepDoneEvent : Event :=
  { event_type := "step.completed", source_agent_id := some "a1",
    project_id := "p1", payload := [("mission_id", .str "m1")], created_at := 0 }

def triggerDb : DB :=
  { projects := [sampleProject], agents := [sampleAgent],
    proposals := [sampleProposal], missions := [sampleMission],
    steps := [], events := [stepDoneEvent], triggers := [deployTrigger],
    next_id := 0 }

/-- Witness for C9 at the concrete trigger store: the action appends the
deploy step to the event's mission, and after the trigger loop
`last_fired_at` is set. -/
theorem create_step_trigger_behavior_witness :
    createStepFromTrigger 0 deployAction triggerDb [stepDoneEvent]
      = .ok ({ triggerDb with
                steps := [stepFromAction 0 triggerDb deployAction sampleMission .deploy],
                next_id := 1 }, true)
    ∧ createStepFromTrigger 0 deployAction triggerDb [] = .ok (triggerDb, false)
    ∧ (∀ t2 ∈ (evalTriggerStep 0 [stepDoneEvent] (triggerDb, ⟨0, 0, 0, []⟩)
          deployTrigger).fst.triggers,
        t2.id = deployTrigger.id → t2.last_fired_at = some 0) := by
  have h := create_step_trigger_behavior
  refine ⟨?_, ?_, ?_⟩
  · have h1 := (h.1 0 deployAction triggerDb sampleMission .deploy [stepDoneEvent]
      (by decide)
      (by
        intro e he v hv
        simp only [List.mem_singleton] at he
        subst he
        simp [stepDoneEvent, pyLookup] at hv
        exact ⟨"m1", hv.symm⟩)
      (by decide)).1
    simpa [triggerDb] using h1
  · exact h.2.1 0 deployAction triggerDb [] (by simp)
  · exact h.2.2 0 [stepDoneEvent] triggerDb ⟨0, 0, 0, []⟩ deployTrigger
      { triggerDb with
          steps := [stepFromAction 0 triggerDb deployAction sampleMission .deploy],
          next_id := 1 }
      (by decide) (by rfl)

end AgentLoop

namespace AgentLoop

/- ── C4: mission closing ── -/

/-- Recognizes a `mission.completed` event for the given mission. -/
def completedEventFor (mission_id : String) (e : Event) : Bool :=
  e.event_type == "mission.completed"
  && pyLookup e.payload "mission_id" == some (.str mission_id)

/-- The `mission.completed` events recorded for a given mission. -/
def countCompletedEvents (db : DB) (mission_id : String) : Nat :=
  (db.events.filter (completedEventFor mission_id)).length

theorem shouldClose_iff {db : DB} {m : Mission} (hactive : m.status = .active) :
    shouldClose db m = true
      ↔ (missionSteps db m.id ≠ []
          ∧ ∀ s ∈ missionSteps db m.id, s.status = .completed) := by
  unfold shouldClose
  simp [hactive, List.all_eq_true, List.isEmpty_iff]

theorem completedEventFor_missionCompletedEvent (now : Int) (mid : String)
    (m2 : Mission) :
    completedEventFor mid (missionCompletedEvent now m2) = (m2.id == mid) := by
  by_cases h : m2.id = mid <;>
    simp [completedEventFor, missionCompletedEvent, pyLookup, h]

/-- After the closing phase, the `mission.completed` count of a mission
id grows by the number of closing missions carrying that id. -/
theorem countCompleted_after (now : Int) (db : DB) (mid : String) :
    countCompletedEvents (checkMissionCompletions now db).fst mid
      = countCompletedEvents db mid
        + List.countP (fun m2 => m2.id == mid) (db.missions.filter (shouldClose db)) := by
  unfold checkMissionCompletions countCompletedEvents
  simp only [List.filter_append, List.length_append]
  congr 1
  rw [← List.countP_eq_length_filter, List.countP_map]
  apply List.countP_congr
  intro m2 _
  have hcomp : (completedEventFor mid ∘ missionCompletedEvent now) m2
      = completedEventFor mid (missionCompletedEvent now m2) := rfl
  rw [hcomp, completedEventFor_missionCompletedEvent]

/-- C4: after the mission-closing phase, an ACTIVE mission with a
nonempty, all-COMPLETED step list is COMPLETED with `completed_at=now`
and exactly one new `mission.completed` event is recorded for it; an
ACTIVE mission with no steps or an unfinished step is unchanged and
gains no event; and — the iff — the per-mission update yields a
COMPLETED mission exactly when the mission had at least one step and
all of its steps were COMPLETED. -/
theorem mission_closing_iff (now : Int) (db : DB) (m : Mission)
    (hnodup : (db.missions.map (fun m2 => m2.id)).Nodup)
    (hm : m ∈ db.missions) (hactive : m.status = .active) :
    ((closeMission now db m).status = .completed
      ↔ (missionSteps db m.id ≠ []
          ∧ ∀ s ∈ missionSteps db m.id, s.status = .completed))
    ∧ ((missionSteps db m.id ≠ []
          ∧ ∀ s ∈ missionSteps db m.id, s.status = .completed) →
        { m with status := .completed, completed_at := some now }
            ∈ (checkMissionCompletions now db).fst.missions
        ∧ countCompletedEvents (checkMissionCompletions now db).fst m.id
            = countCompletedEvents db m.id + 1)
    ∧ ((missionSteps db m.id = []
          ∨ ∃ s ∈ missionSteps db m.id, s.status ≠ .completed) →
        m ∈ (checkMissionCompletions now db).fst.missions
        ∧ countCompletedEvents (checkMissionCompletions now db).fst m.id
            = countCompletedEvents db m.id) := by
  have hinj := List.inj_on_of_nodup_map hnodup
  have hmemid : ∀ m2 ∈ db.missions.filter (shouldClose db), m2.id = m.id → m2 = m := by
    intro m2 hm2 hid
    exact hinj (List.mem_filter.mp hm2).1 hm hid
  refine ⟨?_, ?_, ?_⟩
  · constructor
    · intro hcomp
      by_contra hnc
      have hsc : shouldClose db m = false := by
        by_contra hsc2
        rw [Bool.not_eq_false] at hsc2
        exact hnc ((shouldClose_iff hactive).mp hsc2)
      unfold closeMission at hcomp
      rw [hsc] at hcomp
      simp at hcomp
      rw [hactive] at hcomp
      cases hcomp
    · intro hcond
      have hsc : shouldClose db m = true := (shouldClose_iff hactive).mpr hcond
      unfold closeMission
      rw [hsc]
      simp
  · intro hcond
    have hsc : shouldClose db m = true := (shouldClose_iff hactive).mpr hcond
    have hclose : closeMission now db m
        = { m with status := .completed, completed_at := some now } := by
      unfold closeMission
      rw [hsc]
      simp
    constructor
    · rw [← hclose]
      exact List.mem_map_of_mem (closeMission now db) hm
    · rw [countCompleted_after]
      congr 1
      have hmem : m ∈ db.missions.filter (shouldClose db) :=
        List.mem_filter.mpr ⟨hm, hsc⟩
      have hnodup2 : (db.missions.filter (shouldClose db)).Nodup :=
        List.Nodup.sublist (List.filter_sublist _) (List.Nodup.of_map _ hnodup)
      rw [List.countP_congr (q := fun m2 => m2 == m) ?_]
      · rw [← List.count_eq_countP]
        exact List.count_eq_one_of_mem hnodup2 hmem
      · intro m2 hm2
        simp only [beq_iff_eq]
        constructor
        · intro hid
          exact hmemid m2 hm2 hid
        · intro heq
          rw [heq]
  · intro hcond
    have hsc : shouldClose db m = false := by
      by_contra hsc2
      rw [Bool.not_eq_false] at hsc2
      have := (shouldClose_iff hactive).mp hsc2
      rcases hcond with hnil | ⟨s, hs, hns⟩
      · exact this.1 hnil
      · exact hns (this.2 s hs)
    have hclose : closeMission now db m = m := by
      unfold closeMission
      rw [hsc]
      simp
    constructor
    · rw [← hclose]
      exact List.mem_map_of_mem (closeMission now db) hm
    · rw [countCompleted_after]
      have hzero : List.countP (fun m2 => m2.id == m.id)
          (db.missions.filter (shouldClose db)) = 0 := by
        rw [List.countP_eq_zero]
        intro m2 hm2
        simp only [beq_iff_eq]
        intro hid
        have heq := hmemid m2 hm2 hid
        rw [heq] at hm2
        have := (List.mem_filter.mp hm2).2
        rw [hsc] at this
        cases this
      rw [hzero]
      simp

/-- A store with one ACTIVE mission whose single step is COMPLETED, for
the C4 witness. -/
def closingDb : DB :=
  { projects := [sampleProject], agents := [sampleAgent],
    proposals := [sampleProposal], missions := [sampleMission],
    steps := [{ sampleStep with status := .completed }], events := [],
    triggers := [], next_id := 0 }

/-- Witness for C4 at the concrete store. -/
theorem mission_closing_iff_witness :
    { sampleMission with status := .completed, completed_at := some 9 }
        ∈ (checkMissionCompletions 9 closingDb).fst.missions
    ∧ countCompletedEvents (checkMissionCompletions 9 closingDb).fst "m1"
        = countCompletedEvents closingDb "m1" + 1 := by
  have h := (mission_closing_iff 9 closingDb sampleMission (by decide)
    (by decide) (by decide)).2.1 (by decide)
  exact h

end AgentLoop

namespace AgentLoop

/- ── Phase-preservation lemmas for the tick ── -/

theorem syncTask_agents (now : Int) (project : Project) (default_agent : Agent)
    (board_id : String) (db : DB) (t : Task) :
    (syncTask now project default_agent board_id db t).agents = db.agents := by
  unfold syncTask
  split_ifs <;> rfl

theorem processBoardTasks_agents (boardTasks : String → List Task) (now : Int)
    (project : Project) (default_agent : Agent) (board_id : String) (db : DB) :
    (processBoardTasks boardTasks now project default_agent board_id db).agents
      = db.agents := by
  unfold processBoardTasks
  refine foldl_preserves (P := fun c => c.agents = db.agents) ?_ _ db rfl
  intro b t hb
  rw [syncTask_agents]
  exact hb

/-- The three exits of `syncBoardInline`. -/
theorem syncBoardInline_cases (boardTasks : String → List Task) (now : Int)
    (db : DB) (entry : String × String) :
    syncBoardInline boardTasks now db entry = db
    ∨ ∃ project default_agent,
        syncBoardInline boardTasks now db entry
          = processBoardTasks boardTasks now project default_agent entry.fst db := by
  unfold syncBoardInline
  cases hfind : db.projects.find? (fun pr => pr.slug == entry.snd) with
  | none =>
    dsimp only
    exact Or.inl rfl
  | some project =>
    dsimp only
    cases hag : db.agents.find?
        (fun a => a.project_id == project.id && a.status == .active) with
    | none =>
      dsimp only
      exact Or.inl rfl
    | some default_agent =>
      dsimp only
      exact Or.inr ⟨project, default_agent, rfl⟩

/-- The inbound sync leaves the agents table unchanged and only appends
proposals. -/
theorem syncMissionControl_shape (ext : Ext) (now : Int) (db : DB) :
    (syncMissionControl ext now db).agents = db.agents
    ∧ ∃ news, (syncMissionControl ext now db).proposals = db.proposals ++ news := by
  unfold syncMissionControl
  refine foldl_preserves (P := fun b => b.agents = db.agents
    ∧ ∃ news, b.proposals = db.proposals ++ news)
    ?_ ext.board_map db ⟨rfl, [], by simp⟩
  intro b entry hb
  rcases syncBoardInline_cases ext.boardTasks now b entry with hsame | ⟨project, ag, hrun⟩
  · rw [hsame]
    exact hb
  · rw [hrun]
    constructor
    · rw [processBoardTasks_agents]
      exact hb.1
    · obtain ⟨news, hnews⟩ := hb.2
      obtain ⟨news2, hnews2, _⟩ :=
        (processBoardTasks_shape ext.boardTasks now project ag entry.fst b).2
      exact ⟨news ++ news2, by rw [hnews2, hnews, List.append_assoc]⟩

theorem createStepFromTrigger_ok_tables (now : Int) (act : TriggerAction) :
    ∀ (events : List Event) (db db2 : DB) (b : Bool),
      createStepFromTrigger now act db events = .ok (db2, b) →
      db2.proposals = db.proposals ∧ db2.agents = db.agents
        ∧ db2.events = db.events ∧ db2.triggers = db.triggers := by
  intro events
  induction events with
  | nil =>
    intro db db2 b h
    unfold createStepFromTrigger at h
    injection h with h2
    injection h2 with h3 _
    rw [← h3]
    exact ⟨rfl, rfl, rfl, rfl⟩
  | cons e rest ih =>
    intro db db2 b h
    unfold createStepFromTrigger at h
    cases hlook : pyLookup e.payload "mission_id" with
    | none =>
      rw [hlook] at h
      exact ih db db2 b h
    | some v =>
      rw [hlook] at h
      cases v with
      | str s =>
        dsimp only at h
        cases hfind : db.missions.find? (fun m => m.id == s) with
        | none =>
          rw [hfind] at h
          dsimp only at h
          exact ih db db2 b h
        | some mission =>
          rw [hfind] at h
          dsimp only at h
          cases hty : stepTypeOfString (act.step_type.getD "other") with
          | none =>
            rw [hty] at h
            cases h
          | some ty =>
            rw [hty] at h
            dsimp only at h
            injection h with h2
            injection h2 with h3 _
            rw [← h3]
            exact ⟨rfl, rfl, rfl, rfl⟩
      | int n =>
        dsimp only at h
        cases h
      | bool b2 =>
        dsimp only at h
        cases h
      | null =>
        dsimp only at h
        cases h

theorem evalMissionCompletionFromTrigger_ok_tables (now : Int) :
    ∀ (events : List Event) (db db2 : DB) (b : Bool),
      evalMissionCompletionFromTrigger now db events = .ok (db2, b) →
      db2.proposals = db.proposals ∧ db2.agents = db.agents
        ∧ db2.triggers = db.triggers := by
  intro events
  induction events with
  | nil =>
    intro db db2 b h
    unfold evalMissionCompletionFromTrigger at h
    injection h with h2
    injection h2 with h3 _
    rw [← h3]
    exact ⟨rfl, rfl, rfl⟩
  | cons e rest ih =>
    intro db db2 b h
    unfold evalMissionCompletionFromTrigger at h
    cases hlook : pyLookup e.payload "mission_id" with
    | none =>
      rw [hlook] at h
      exact ih db db2 b h
    | some v =>
      rw [hlook] at h
      cases v with
      | str s =>
        dsimp only at h
        cases hfind : db.missions.find? (fun m => m.id == s) with
        | none =>
          rw [hfind] at h
          dsimp only at h
          exact ih db db2 b h
        | some mission =>
          rw [hfind] at h
          dsimp only at h
          by_cases hcond : (mission.status == MissionStatus.active
              && !(missionSteps db mission.id).isEmpty
              && (missionSteps db mission.id).all (fun st => st.status == .completed))
              = true
          · rw [if_pos hcond] at h
            injection h with h2
            injection h2 with h3 _
            rw [← h3]
            exact ⟨rfl, rfl, rfl⟩
          · rw [if_neg hcond] at h
            exact ih db db2 b h
      | int n =>
        dsimp only at h
        cases h
      | bool b2 =>
        dsimp only at h
        cases h
      | null =>
        dsimp only at h
        cases h

theorem executeTriggerAction_ok_tables (now : Int) (t : Trigger)
    (events : List Event) (db db2 : DB) (b : Bool)
    (h : executeTriggerAction now t events db = .ok (db2, b)) :
    db2.proposals = db.proposals ∧ db2.agents = db.agents := by
  unfold executeTriggerAction at h
  cases hty : t.action.type with
  | none => rw [hty] at h; cases h
  | some s =>
    rw [hty] at h
    by_cases h1 : s = "create_step"
    · subst h1
      have := createStepFromTrigger_ok_tables now t.action events db db2 b h
      exact ⟨this.1, this.2.1⟩
    · by_cases h2 : s = "evaluate_mission_completion"
      · subst h2
        simp only [h1] at h
        have := evalMissionCompletionFromTrigger_ok_tables now events db db2 b h
        exact ⟨this.1, this.2.1⟩
      · simp only [h1, h2] at h
        cases h

theorem setTriggerFired_tables (db : DB) (tid : String) (now : Int) :
    (setTriggerFired db tid now).proposals = db.proposals
    ∧ (setTriggerFired db tid now).agents = db.agents := ⟨rfl, rfl⟩

theorem evalTriggerStep_tables (now : Int) (recent : List Event)
    (acc : DB × TriggerStats) (t : Trigger) :
    (evalTriggerStep now recent acc t).fst.proposals = acc.fst.proposals
    ∧ (evalTriggerStep now recent acc t).fst.agents = acc.fst.agents := by
  unfold evalTriggerStep
  by_cases hempty : (matchEventsToTrigger recent t).isEmpty = true
  · simp [hempty]
  · rw [Bool.not_eq_true] at hempty
    simp only [hempty, Bool.false_eq_true, if_false]
    cases hexec : executeTriggerAction now t (matchEventsToTrigger recent t) acc.fst with
    | error msg => exact ⟨rfl, rfl⟩
    | ok r =>
      obtain ⟨db2, b⟩ := r
      have htab := executeTriggerAction_ok_tables now t _ acc.fst db2 b hexec
      cases b with
      | true =>
        dsimp only
        exact ⟨htab.1, htab.2⟩
      | false =>
        dsimp only
        exact ⟨htab.1, htab.2⟩

theorem evaluateTriggers_tables (now : Int) (db : DB) :
    (evaluateTriggers now db).fst.proposals = db.proposals
    ∧ (evaluateTriggers now db).fst.agents = db.agents := by
  unfold evaluateTriggers
  refine foldl_preserves (P := fun acc : DB × TriggerStats =>
    acc.fst.proposals = db.proposals ∧ acc.fst.agents = db.agents)
    ?_ _ (db, ⟨0, 0, 0, []⟩) ⟨rfl, rfl⟩
  intro acc t hacc
  have := evalTriggerStep_tables now (db.events.filter (fun e => now - 300 ≤ e.created_at))
    acc t
  exact ⟨this.1.trans hacc.1, this.2.trans hacc.2⟩

theorem createMissionsFromProposals_proposals (db : DB) :
    (createMissionsFromProposals db).fst.proposals = db.proposals := by
  unfold createMissionsFromProposals
  refine foldl_preserves (P := fun acc : DB × Nat =>
    acc.fst.proposals = db.proposals) ?_ _ (db, 0) rfl
  intro acc p hacc
  dsimp only
  by_cases h : acc.fst.missions.any (fun m => m.proposal_id == p.id) = true
  · simp only [h, if_true]
    exact hacc
  · rw [Bool.not_eq_true] at h
    simp only [h, Bool.false_eq_true, if_false]
    exact hacc

theorem createStepsFromMissions_proposals (now : Int) (db : DB) :
    (createStepsFromMissions now db).fst.proposals = db.proposals := by
  unfold createStepsFromMissions
  refine foldl_preserves (P := fun acc : DB × Nat =>
    acc.fst.proposals = db.proposals) ?_ _ (db, 0) rfl
  intro acc m hacc
  dsimp only
  by_cases h : acc.fst.steps.any (fun s => s.mission_id == m.id) = true
  · simp only [h, if_true]
    exact hacc
  · rw [Bool.not_eq_true] at h
    simp only [h, Bool.false_eq_true, if_false]
    exact hacc

theorem checkMissionCompletions_proposals (now : Int) (db : DB) :
    (checkMissionCompletions now db).fst.proposals = db.proposals := rfl

theorem escalateStep_proposals (ext : Ext) (now : Int) (stepsTable : List Step)
    (proposals : List Proposal) (acc : DB × Nat) (m : Mission) :
    (escalateStep ext now stepsTable proposals acc m).fst.proposals
      = acc.fst.proposals := by
  unfold escalateStep
  dsimp only
  split_ifs
  · rfl
  · split
    · rfl
    · split
      · rfl
      · split
        · rfl
        · split
          · rfl
          · rfl
  · rfl

theorem escalateStuckMissions_proposals (ext : Ext) (now : Int) (db : DB) :
    (escalateStuckMissions ext now db).fst.proposals = db.proposals := by
  unfold escalateStuckMissions
  refine foldl_preserves (P := fun acc : DB × Nat =>
    acc.fst.proposals = db.proposals) ?_ _ (db, 0) rfl
  intro acc m hacc
  rw [escalateStep_proposals]
  exact hacc

end AgentLoop

namespace AgentLoop

/- ── C3: auto-approval after a tick ── -/

/-- A title matching one of the keyword classes auto-approves a flagged
proposal regardless of the agent-config rule. -/
theorem shouldAutoApprove_of_kw (agents : List Agent) (p : Proposal)
    (hauto : p.auto_approve = true)
    (hkw : (kwAny p.title ["fix", "patch", "hotfix", "typo"]
        || kwAny p.title ["docs", "documentation", "readme"]
        || kwAny p.title ["test", "spec", "testing"]) = true) :
    shouldAutoApprove agents p = true := by
  unfold shouldAutoApprove
  rw [hauto]
  simp only [Bool.not_true, Bool.false_eq_true, if_false]
  split_ifs with h1 h2 h3
  · rfl
  · rfl
  · rfl
  · rcases Bool.or_eq_true_iff.mp hkw with h12 | h3kw
    · rcases Bool.or_eq_true_iff.mp h12 with h1kw | h2kw
      · exact absurd h1kw h2
      · exact absurd h2kw h3
    · exact h3kw

/-- The proposals table after a full tick: the sync appends some new
proposals, the approval phase maps the system-approval over them, the
middle phases leave proposals untouched, and retention maps the expiry
over the result. -/
theorem runTick_proposals (ext : Ext) (now : Int) (db : DB) :
    ∃ news, (runTick ext now db).snd.proposals
      = ((db.proposals ++ news).map (fun q =>
            if q.status == .pending && shouldAutoApprove db.agents q
            then approveBySystem now q else q)).map (fun q =>
            if q.status == .pending && decide (q.created_at < now - 604800)
            then { q with status := ProposalStatus.expired } else q) := by
  obtain ⟨hagents, news, hprops⟩ := syncMissionControl_shape ext now db
  refine ⟨news, ?_⟩
  have step1 : (runTick ext now db).snd.proposals
      = ((escalateStuckMissions ext now (checkMissionCompletions now
            (createStepsFromMissions now (createMissionsFromProposals
              (evaluateTriggers now (processPendingApprovals now
                (syncMissionControl ext now db)).fst).fst).fst).fst).fst).fst).proposals.map
          (fun q => if q.status == .pending && decide (q.created_at < now - 604800)
            then { q with status := ProposalStatus.expired } else q) := rfl
  rw [escalateStuckMissions_proposals, checkMissionCompletions_proposals,
    createStepsFromMissions_proposals, createMissionsFromProposals_proposals,
    (evaluateTriggers_tables now _).1] at step1
  have step2 : (processPendingApprovals now (syncMissionControl ext now db)).fst.proposals
      = (syncMissionControl ext now db).proposals.map
          (fun q => if q.status == .pending
              && shouldAutoApprove (syncMissionControl ext now db).agents q
            then approveBySystem now q else q) := rfl
  rw [step2, hagents, hprops] at step1
  exact step1

/-- C3 as amended: for every proposal that is PENDING when the tick
starts, `auto_approve=true` and a title containing one of the keyword
classes yield, after `Tick()`, the proposal APPROVED with
`reviewed_by="system"` and `reviewed_at` set; a PENDING proposal matching
no rule remains PENDING unless it is older than seven days, in which case
the retention phase of the same tick expires it. -/
theorem autoapprove_after_tick (ext : Ext) (now : Int) (db : DB) (p : Proposal)
    (hp : p ∈ db.proposals) (hpend : p.status = .pending) :
    (p.auto_approve = true →
      (kwAny p.title ["fix", "patch", "hotfix", "typo"]
        || kwAny p.title ["docs", "documentation", "readme"]
        || kwAny p.title ["test", "spec", "testing"]) = true →
      approveBySystem now p ∈ (runTick ext now db).snd.proposals
        ∧ (approveBySystem now p).status = .approved
        ∧ (approveBySystem now p).reviewed_by = some "system"
        ∧ (approveBySystem now p).reviewed_at = some now)
    ∧ (shouldAutoApprove db.agents p = false →
        ¬ p.created_at < now - 604800 →
        p ∈ (runTick ext now db).snd.proposals) := by
  obtain ⟨news, hdecomp⟩ := runTick_proposals ext now db
  have hmem1 : p ∈ db.proposals ++ news := List.mem_append_left _ hp
  constructor
  · intro hauto hkw
    have hsaa := shouldAutoApprove_of_kw db.agents p hauto hkw
    refine ⟨?_, rfl, rfl, rfl⟩
    rw [hdecomp]
    have himg : (fun q => if q.status == .pending
          && decide (q.created_at < now - 604800)
        then { q with status := ProposalStatus.expired } else q)
        ((fun q => if q.status == .pending && shouldAutoApprove db.agents q
          then approveBySystem now q else q) p) = approveBySystem now p := by
      simp [hpend, hsaa, approveBySystem]
    exact himg ▸ List.mem_map_of_mem _ (List.mem_map_of_mem _ hmem1)
  · intro hsaa hold
    rw [hdecomp]
    have himg : (fun q => if q.status == .pending
          && decide (q.created_at < now - 604800)
        then { q with status := ProposalStatus.expired } else q)
        ((fun q => if q.status == .pending && shouldAutoApprove db.agents q
          then approveBySystem now q else q) p) = p := by
      simp [hpend, hsaa, hold]
    exact himg ▸ List.mem_map_of_mem _ (List.mem_map_of_mem _ hmem1)

/-- An eight-day-old PENDING proposal matching no approval rule, and a
DRAFT proposal with a keyword title, for the C3 counterexample. -/
def staleProposal : Proposal :=
  { sampleProposal with auto_approve := false, title := "Big refactor",
                        created_at := 0 }

def draftKeywordProposal : Proposal :=
  { sampleProposal with id := "pr2", title := "Fix typo in README",
                        status := .draft, created_at := 700000 }

def staleDb : DB :=
  { projects := [sampleProject], agents := [sampleAgent],
    proposals := [staleProposal, draftKeywordProposal], missions := [],
    steps := [], events := [], triggers := [], next_id := 0 }

/-- C3 counterexample: after `Tick()` at `now = 700000` (more than seven
days past creation), the PENDING proposal matching no rule is EXPIRED,
not PENDING — retention in the same tick expires it — and the DRAFT
proposal with `auto_approve=true` and the keyword title "Fix typo in
README" stays DRAFT, not APPROVED, because only PENDING proposals are
processed. -/
theorem autoapprove_counterexample :
    ((runTick emptyExt 700000 staleDb).snd.proposals.map (fun q => q.status))
      = [.expired, .draft]
    ∧ ProposalStatus.expired ≠ ProposalStatus.pending
    ∧ ProposalStatus.draft ≠ ProposalStatus.approved := by
  refine ⟨by decide, by decide, by decide⟩

def approvalDb : DB :=
  { projects := [sampleProject], agents := [sampleAgent],
    proposals := [sampleProposal], missions := [], steps := [], events := [],
    triggers := [], next_id := 0 }

/-- Witness for the amended C3 at a concrete store: the pending
`auto_approve` proposal titled "Fix login bug" is system-approved by the
tick, and a fresh pending proposal matching no rule survives it. -/
theorem autoapprove_after_tick_witness :
    approveBySystem 5 sampleProposal ∈ (runTick emptyExt 5 approvalDb).snd.proposals
    ∧ staleProposal ∈ (runTick emptyExt 5
        { approvalDb with proposals := [staleProposal] }).snd.proposals := by
  constructor
  · exact ((autoapprove_after_tick emptyExt 5 approvalDb sampleProposal
      (by decide) (by decide)).1 (by decide) (by decide)).1
  · exact (autoapprove_after_tick emptyExt 5
      { approvalDb with proposals := [staleProposal] } staleProposal
      (by decide) (by decide)).2 (by decide) (by decide)

/- ── C2: tick error handling ── -/

/-- The retention postcondition: after `_cleanup_old_data`, no surviving
event is older than 30 days and no surviving PENDING proposal is older
than 7 days. -/
theorem cleanup_post (now : Int) (db : DB) :
    (∀ e ∈ (cleanupOldData now db).fst.events, now - 2592000 ≤ e.created_at)
    ∧ (∀ p ∈ (cleanupOldData now db).fst.proposals,
        p.status = .pending → now - 604800 ≤ p.created_at) := by
  constructor
  · intro e he
    have h2 := (List.mem_filter.mp he).2
    simp only [Bool.not_eq_true', decide_eq_false_iff_not, not_lt] at h2
    exact h2
  · intro p hp hpend
    obtain ⟨q, hq, himg⟩ := List.mem_map.mp hp
    by_cases hcase : (q.status == ProposalStatus.pending
        && decide (q.created_at < now - 604800)) = true
    · rw [if_pos hcase] at himg
      rw [← himg] at hpend
      cases hpend
    · rw [if_neg hcase] at himg
      subst himg
      simp only [Bool.and_eq_true, beq_iff_eq, decide_eq_true_eq, not_and] at hcase
      have := hcase hpend
      omega

/-- C2: even on a tick whose result carries errors (the only raise that
reaches `OrchestrationResult.errors` is a trigger-action failure, caught
per trigger), the later phases still ran — in particular retention, the
last phase, has been applied to the final state — and the tick returned
normally with its counters (it is a total function into
`OrchestrationResult`). -/
theorem tick_errors_do_not_abort (ext : Ext) (now : Int) (db : DB)
    (h : (runTick ext now db).fst.errors ≠ []) :
    (∀ e ∈ (runTick ext now db).snd.events, now - 2592000 ≤ e.created_at)
    ∧ (∀ p ∈ (runTick ext now db).snd.proposals,
        p.status = .pending → now - 604800 ≤ p.created_at) := by
  have hsnd : (runTick ext now db).snd
      = (cleanupOldData now (escalateStuckMissions ext now (checkMissionCompletions now
          (createStepsFromMissions now (createMissionsFromProposals
            (evaluateTriggers now (processPendingApprovals now
              (syncMissionControl ext now db)).fst).fst).fst).fst).fst).fst).fst := rfl
  rw [hsnd]
  exact cleanup_post now _

/-- An enabled trigger with an unknown action type and a matching recent
event, plus an eight-day-old pending proposal, for the C2 witness. -/
def badTrigger : Trigger :=
  { id := "tr9", project_id := "p1", name := "bad-action",
    event_pattern := { event_type := none, conditions := none },
    action := { type := some "bogus", title := none, description := none,
                step_type := none, order_index := none },
    enabled := true, last_fired_at := none }

def recentEvent : Event :=
  { event_type := "anything", source_agent_id := none, project_id := "p1",
    payload := [], created_at := 700000 }

def errorTickDb : DB :=
  { projects := [sampleProject], agents := [sampleAgent],
    proposals := [staleProposal], missions := [], steps := [],
    events := [recentEvent], triggers := [badTrigger], next_id := 0 }

/-- Witness for C2: on a concrete store whose trigger action raises, the
tick result carries the error, yet the retention phase still ran. -/
theorem tick_errors_do_not_abort_witness :
    (runTick emptyExt 700000 errorTickDb).fst.errors ≠ []
    ∧ (∀ p ∈ (runTick emptyExt 700000 errorTickDb).snd.proposals,
        p.status = .pending → 700000 - 604800 ≤ p.created_at) := by
  refine ⟨by decide, ?_⟩
  exact (tick_errors_do_not_abort emptyExt 700000 errorTickDb (by decide)).2

end AgentLoop
